import Mathlib

/-!
Verification of the MTS-DEPLOI-AI engineering core.

This file gives a shallow embedding, in Lean 4, of the deterministic core of
the repository: the resource-quantity parser and cost model of
`src/mcp_server/tools/cost_optimizer.py`, the security scanner of
`src/mcp_server/tools/security_analyzer.py`, the address allocator of
`src/mcp_server/config.py`, and the network-attachment generator of
`src/mcp_server/tools/telecom_generator.py`; and proves (or refutes)
the stated properties of those components.

Modelling conventions:
* Python floats are modelled as exact rationals (`ℚ`).
* A parsed YAML value (`yaml.safe_load_all` output) is the inductive `Yaml`.
  Dictionaries are association lists without duplicate keys, in insertion
  order (Python 3 dict order).
* A Python exception raised while processing a value is `none` / an `ok=false`
  flag; state mutated before the exception is kept, matching the in-place
  dictionary mutation of the source.
* A manifest map entry carries both its raw text and its parse result
  (`none` = text that `yaml.safe_load_all` rejects); re-serialisation of a
  modified entry uses a fixed deterministic dump whose exact formatting is
  irrelevant to the properties proved here.
-/

namespace MTSDeploy

/-- A value produced by `yaml.safe_load_all` / `json.loads`:
`None`, booleans, integers, strings, lists and (insertion-ordered) dicts. -/
inductive Yaml where
  | null : Yaml
  | bool (b : Bool) : Yaml
  | int (n : ℤ) : Yaml
  | str (s : String) : Yaml
  | list (xs : List Yaml) : Yaml
  | map (kvs : List (String × Yaml)) : Yaml
  deriving Repr, Inhabited

/-- Python truthiness (`if not doc:`, `if caps:` …). -/
def Yaml.truthy : Yaml → Bool
  | .null => false
  | .bool b => b
  | .int n => n != 0
  | .str s => s != ""
  | .list xs => !xs.isEmpty
  | .map kvs => !kvs.isEmpty

/-- First-match key lookup in a dict. -/
def lookupKey (kvs : List (String × Yaml)) (k : String) : Option Yaml :=
  (kvs.find? (fun p => p.1 == k)).map (·.2)

/-- Python `d.get(k, default)`.  `none` models the `AttributeError` raised
when the receiver is not a dict. -/
def Yaml.get (v : Yaml) (k : String) (dflt : Yaml) : Option Yaml :=
  match v with
  | .map kvs => some ((lookupKey kvs k).getD dflt)
  | _ => none

/-- Python `d.get(k)` (default `None`). -/
def Yaml.get1 (v : Yaml) (k : String) : Option Yaml :=
  v.get k .null

/-- Python `d[k]`: `none` models `KeyError`/`TypeError`. -/
def Yaml.idx (v : Yaml) (k : String) : Option Yaml :=
  match v with
  | .map kvs => lookupKey kvs k
  | _ => none

/-- Python dict assignment `d[k] = v`: updates in place if the key exists
(keeping its position), otherwise appends. -/
def setKey : List (String × Yaml) → String → Yaml → List (String × Yaml)
  | [], k, v => [(k, v)]
  | (k', v') :: rest, k, v =>
    if k' == k then (k, v) :: rest else (k', v') :: setKey rest k v

mutual
/-- Python `==` on YAML/JSON values (`True == 1`, `False == 0`). -/
def pyEq : Yaml → Yaml → Bool
  | .null, .null => true
  | .bool a, .bool b => a == b
  | .bool a, .int n => (if a then (1 : ℤ) else 0) == n
  | .int n, .bool a => n == (if a then (1 : ℤ) else 0)
  | .int a, .int b => a == b
  | .str a, .str b => a == b
  | .list xs, .list ys => pyEqList xs ys
  | .map xs, .map ys => xs.length == ys.length && pyEqMap xs ys
  | _, _ => false

def pyEqList : List Yaml → List Yaml → Bool
  | [], [] => true
  | x :: xs, y :: ys => pyEq x y && pyEqList xs ys
  | _, _ => false

/-- Dict equality: every key of the left dict maps to an equal value on the
right (with the length check this is Python dict equality, dicts having no
duplicate keys). -/
def pyEqMap : List (String × Yaml) → List (String × Yaml) → Bool
  | [], _ => true
  | (k, v) :: rest, ys =>
    (match lookupKey ys k with
     | some w => pyEq v w
     | none => false) && pyEqMap rest ys
end

/-- Python iteration `for x in v:`: lists yield elements, dicts yield keys,
strings yield one-character strings; other values raise `TypeError`. -/
def pyIter : Yaml → Option (List Yaml)
  | .list xs => some xs
  | .map kvs => some (kvs.map (fun p => .str p.1))
  | .str s => some (s.data.map (fun c => .str ⟨[c]⟩))
  | _ => none

/-- Python `str.endswith(post)`: suffix test on the character list. -/
def strEndsWith (s post : String) : Bool :=
  post.data.isSuffixOf s.data

/-- Substring test (`needle in s` for Python strings). -/
def containsSub (needle : List Char) : List Char → Bool
  | [] => needle.isEmpty
  | c :: cs => needle.isPrefixOf (c :: cs) || containsSub needle cs

/-- Membership `needle in v` for a string needle: substring test on strings,
element test on lists, key test on dicts; `TypeError` otherwise. -/
def pyContains (v : Yaml) (needle : String) : Option Bool :=
  match v with
  | .str s => some (containsSub needle.data s.data)
  | .list xs => some (xs.any (fun x => pyEq x (.str needle)))
  | .map kvs => some (kvs.any (fun p => p.1 == needle))
  | _ => none

/-- `str(v)` / f-string interpolation.  Scalars are rendered exactly as
Python does; for containers the punctuation is approximated (no property
proved here inspects such a rendering). -/
def pyStr : Yaml → String
  | .null => "None"
  | .bool true => "True"
  | .bool false => "False"
  | .int n => toString n
  | .str s => s
  | .list xs => "[" ++ String.intercalate ", " (xs.map (fun x => reprStr x)) ++ "]"
  | .map kvs => "\x7b" ++ String.intercalate ", " (kvs.map (fun p => p.1 ++ ": " ++ reprStr p.2)) ++ "\x7d"

/-! ### Python numeric conversions -/

/-- Decimal-literal body of Python `float`: digits with at most one decimal
point, at least one digit.  `acc` is the value so far, `frac` the scale of
the next fractional digit once the point has been seen, `seen` whether a
digit has been read. -/
def floatAux : List Char → ℚ → Option ℚ → Bool → Option ℚ
  | [], acc, _, seen => if seen then some acc else none
  | c :: cs, acc, none, seen =>
    if c.isDigit then floatAux cs (10 * acc + ((c.toNat - 48 : ℕ) : ℚ)) none true
    else if c = '.' then floatAux cs acc (some (1 / 10)) seen
    else none
  | c :: cs, acc, some sc, _seen =>
    if c.isDigit then floatAux cs (acc + sc * ((c.toNat - 48 : ℕ) : ℚ)) (some (sc / 10)) true
    else none

/-- Strip leading and trailing whitespace (Python `str.strip()`). -/
def pyStripChars (cs : List Char) : List Char :=
  ((cs.dropWhile Char.isWhitespace).reverse.dropWhile Char.isWhitespace).reverse

/-- Python `float(s)` on decimal literals: optional surrounding whitespace,
optional sign, digits with an optional decimal point.  (The exotic float
syntaxes — exponents, `inf`, `nan`, underscores — do not occur in resource
quantity strings and are not modelled.) -/
def pyFloatOfString (s : String) : Option ℚ :=
  match pyStripChars s.data with
  | '-' :: cs => (floatAux cs 0 none false).map Neg.neg
  | '+' :: cs => floatAux cs 0 none false
  | cs => floatAux cs 0 none false

/-- Python `int(s)` on strings: optional whitespace, optional sign, digits. -/
def pyIntOfString (s : String) : Option ℤ :=
  let core : List Char → Option ℤ := fun cs =>
    if cs ≠ [] ∧ cs.all Char.isDigit then
      some ((cs.foldl (fun a c => 10 * a + (c.toNat - 48)) (0 : ℕ) : ℕ) : ℤ)
    else none
  match pyStripChars s.data with
  | '-' :: cs => (core cs).map Neg.neg
  | '+' :: cs => core cs
  | cs => core cs

/-- Python `int(v)` as used on an optimization change's `to` field:
ints pass through, booleans become 0/1, strings are parsed; other values
raise. -/
def pyToInt : Yaml → Option ℤ
  | .int n => some n
  | .bool b => some (if b then 1 else 0)
  | .str s => pyIntOfString s
  | _ => none

/-- A YAML value used as the right operand of `float * v`
(the `replicas` multiplier): ints and booleans are numeric, everything
else raises `TypeError`. -/
def pyNum : Yaml → Option ℚ
  | .int n => some (n : ℚ)
  | .bool b => some (if b then 1 else 0)
  | _ => none

/-! ### `CostOptimizer._parse_cpu` / `_parse_memory`
(src/mcp_server/tools/cost_optimizer.py, lines 126–146) -/

/-- Body of `_parse_cpu(cpu_str)` on an actual string: a trailing `m` means
milli-cores (`float(s[:-1])/1000`), otherwise whole cores (`float(s)`). -/
def parse_cpu_str (s : String) : Option ℚ :=
  match s.data.getLast? with
  | some 'm' => (pyFloatOfString ⟨s.data.dropLast⟩).map (· / 1000)
  | _ => pyFloatOfString s

/-- `_parse_cpu(cpu_str)`.  The argument is whatever the YAML held; a
non-string raises (`.endswith` on a non-`str`), modelled by `none`. -/
def parse_cpu (v : Yaml) : Option ℚ :=
  match v with
  | .str s => parse_cpu_str s
  | _ => none

/-- Body of `_parse_memory(mem_str)` on an actual string: suffixes `Ki`, `Mi`,
`Gi`, `Ti` (checked in that dict-insertion order) scale by `1/(1024*1024)`,
`1/1024`, `1`, `1024`; with no recognized suffix the value is taken as
gigabytes (`float(s)`). -/
def parse_memory_str (s : String) : Option ℚ :=
  match s.data.reverse with
  | 'i' :: 'K' :: rest => (pyFloatOfString ⟨rest.reverse⟩).map (· * (1 / (1024 * 1024)))
  | 'i' :: 'M' :: rest => (pyFloatOfString ⟨rest.reverse⟩).map (· * (1 / 1024))
  | 'i' :: 'G' :: rest => (pyFloatOfString ⟨rest.reverse⟩).map (· * 1)
  | 'i' :: 'T' :: rest => (pyFloatOfString ⟨rest.reverse⟩).map (· * 1024)
  | _ => pyFloatOfString s

/-- `_parse_memory(mem_str)` on a YAML value. -/
def parse_memory (v : Yaml) : Option ℚ :=
  match v with
  | .str s => parse_memory_str s
  | _ => none

/-! ### Pricing table (`CostOptimizer.__init__`) -/

def pricing_cpu_core : ℚ := 1500
def pricing_memory_gb : ℚ := 600
def pricing_storage_gb : ℚ := 50

/-! ### Python `round(x, 2)` -/

/-- Round to the nearest integer, ties to even (Python `round`). -/
def roundHalfEven (q : ℚ) : ℤ :=
  let f := ⌊q⌋
  let r := q - (f : ℚ)
  if r < 1 / 2 then f
  else if 1 / 2 < r then f + 1
  else if Even f then f else f + 1

/-- Python `round(x, 2)` on an exact rational. -/
def pyRound2 (q : ℚ) : ℚ := ((roundHalfEven (q * 100) : ℤ) : ℚ) / 100

/-! ### Manifest maps -/

/-- One entry of a `Dict[str, str]` manifest map: the raw text together with
its `yaml.safe_load_all` parse (`none` when the text is malformed).  The
re-serialisation performed by the cost optimizer is assumed to round-trip
(`safe_load_all ∘ dump_all = id`). -/
structure MFile where
  text : String
  docs : Option (List Yaml)
  deriving Repr, Inhabited

/-- A manifest map, in iteration order. -/
abbrev Manifests := List (String × MFile)

/-! ### `CostOptimizer._calculate_current_cost`
(src/mcp_server/tools/cost_optimizer.py, lines 83–124)

Exception semantics: each file is wrapped in `try`, and `total_cost` is
accumulated by in-place `+=`; an exception mid-file keeps the part already
added and skips the rest of that file.  Each step therefore returns the
partial sum together with an ok-flag. -/

/-- Cost of one container of a Deployment (inner loop body): fetch
`resources.requests`, price CPU (default `"100m"`), then memory (default
`"128Mi"`), each `× price × replicas`. -/
def containerCost (replV : Yaml) (c : Yaml) : ℚ × Bool :=
  match c.get "resources" (.map []) with
  | none => (0, false)
  | some res =>
    match res.get "requests" (.map []) with
    | none => (0, false)
    | some req =>
      match req.get "cpu" (.str "100m") with
      | none => (0, false)
      | some cpuV =>
        match parse_cpu cpuV with
        | none => (0, false)
        | some cores =>
          match pyNum replV with
          | none => (0, false)
          | some repl =>
            let cpuCost := cores * pricing_cpu_core * repl
            match req.get "memory" (.str "128Mi") with
            | none => (cpuCost, false)
            | some memV =>
              match parse_memory memV with
              | none => (cpuCost, false)
              | some gb => (cpuCost + gb * pricing_memory_gb * repl, true)

/-- Containers loop: abort on the first exception, keeping the partial sum. -/
def containersCost (replV : Yaml) : List Yaml → ℚ × Bool
  | [] => (0, true)
  | c :: cs =>
    let (v, ok) := containerCost replV c
    if ok then
      let (v', ok') := containersCost replV cs
      (v + v', ok')
    else (v, false)

/-- Cost contribution of one parsed document (outer loop body).  Note the
storage branch: in the source the `PersistentVolumeClaim` check sits inside
the body that is only reached when `kind == "Deployment"`, so it can never
fire; it is reproduced here verbatim. -/
def docCost (doc : Yaml) : ℚ × Bool :=
  if !doc.truthy then (0, true)
  else
    match doc.get1 "kind" with
    | none => (0, false)
    | some kind =>
      if !(match kind with | .str s => s == "Deployment" | _ => false) then (0, true)
      else
        match doc.get "spec" (.map []) with
        | none => (0, false)
        | some spec =>
          match spec.get "replicas" (.int 1) with
          | none => (0, false)
          | some replV =>
            match doc.get "spec" (.map []) with
            | none => (0, false)
            | some spec2 =>
              match spec2.get "template" (.map []) with
              | none => (0, false)
              | some tmpl =>
                match tmpl.get "spec" (.map []) with
                | none => (0, false)
                | some podSpec =>
                  match podSpec.get "containers" (.list []) with
                  | none => (0, false)
                  | some contV =>
                    match pyIter contV with
                    | none => (0, false)
                    | some containers =>
                      let (v, ok) := containersCost replV containers
                      if !ok then (v, false)
                      else
                        -- Storage cost (PVC) — dead branch, kind is "Deployment" here
                        if (match kind with | .str s => s == "PersistentVolumeClaim" | _ => false) then
                          match doc.get "spec" (.map []) with
                          | none => (v, false)
                          | some s1 =>
                            match s1.get "resources" (.map []) with
                            | none => (v, false)
                            | some s2 =>
                              match s2.get "requests" (.map []) with
                              | none => (v, false)
                              | some s3 =>
                                match s3.get "storage" (.str "1Gi") with
                                | none => (v, false)
                                | some stV =>
                                  match parse_memory stV with
                                  | none => (v, false)
                                  | some gb => (v + gb * pricing_storage_gb, true)
                        else (v, true)

/-- Documents loop of one file: abort on exception, keep the partial sum. -/
def docsCost : List Yaml → ℚ
  | [] => 0
  | d :: ds =>
    let (v, ok) := docCost d
    if ok then v + docsCost ds else v

/-- Contribution of one manifest map entry: non-`.yaml` names are skipped,
parse failures are logged and skipped. -/
def fileCost (filename : String) (f : MFile) : ℚ :=
  if !(strEndsWith filename ".yaml") then 0
  else
    match f.docs with
    | none => 0
    | some ds => docsCost ds

/-- `_calculate_current_cost(manifests)`: sum over the map, then `round(·, 2)`. -/
def calculate_current_cost (ms : Manifests) : ℚ :=
  pyRound2 (ms.foldl (fun acc p => acc + fileCost p.1 p.2) 0)

/-! ### Re-serialisation (`yaml.dump_all`)

A fixed deterministic dump.  Its exact formatting is irrelevant: the
properties proved below only distinguish "entry re-serialised" from "entry
returned byte-identical". -/

mutual
def yamlDump : Yaml → String
  | .null => "null"
  | .bool true => "true"
  | .bool false => "false"
  | .int n => toString n
  | .str s => "\"" ++ s ++ "\""
  | .list xs => "[" ++ yamlDumpList xs ++ "]"
  | .map kvs => "\x7b" ++ yamlDumpKvs kvs ++ "\x7d"

def yamlDumpList : List Yaml → String
  | [] => ""
  | [x] => yamlDump x
  | x :: xs => yamlDump x ++ ", " ++ yamlDumpList xs

def yamlDumpKvs : List (String × Yaml) → String
  | [] => ""
  | [(k, v)] => k ++ ": " ++ yamlDump v
  | (k, v) :: kvs => k ++ ": " ++ yamlDump v ++ ", " ++ yamlDumpKvs kvs
end

/-- `yaml.dump_all(docs)`: documents joined by a separator line. -/
def yamlDumpAll (ds : List Yaml) : String :=
  String.intercalate "\n---\n" (ds.map yamlDump)

/-! ### `CostOptimizer._apply_optimizations`
(src/mcp_server/tools/cost_optimizer.py, lines 326–378) -/

/-- `container.setdefault("resources", {}).setdefault("requests", {})[field] = v`:
the net functional effect of Python's aliasing in-place update.  `none`
models the exception raised when the container — or an existing
`resources`/`requests` entry — is not a dict. -/
def setRequestField (c : Yaml) (field : String) (v : Yaml) : Option Yaml :=
  match c with
  | .map kvs =>
    match (lookupKey kvs "resources").getD (.map []) with
    | .map rkvs =>
      match (lookupKey rkvs "requests").getD (.map []) with
      | .map qkvs =>
        some (.map (setKey kvs "resources"
          (.map (setKey rkvs "requests" (.map (setKey qkvs field v))))))
      | _ => none
    | _ => none
  | _ => none

/-- `doc["spec"]["replicas"] = n`. -/
def setSpecReplicas (doc : Yaml) (n : ℤ) : Option Yaml :=
  match doc with
  | .map kvs =>
    match lookupKey kvs "spec" with
    | some (.map skvs) => some (.map (setKey kvs "spec" (.map (setKey skvs "replicas" (.int n)))))
    | _ => none
  | _ => none

/-- `doc.get("kind") == lit` (comparison of an arbitrary value with a string
literal, as Python `==`). -/
def kindIs (v : Yaml) (lit : String) : Bool :=
  match v with
  | .str s => s == lit
  | _ => false

/-- Apply every requests-field edit of a `reduce_cpu`/`reduce_memory`
change to the containers list. -/
def setRequestsAll (field : String) (v : Yaml) : List Yaml → Option (List Yaml)
  | [] => some []
  | c :: cs =>
    match setRequestField c field v with
    | none => none
    | some c' =>
      match setRequestsAll field v cs with
      | none => none
      | some cs' => some (c' :: cs')

/-- `doc["spec"]["template"]["spec"]["containers"]` indexing chain. -/
def getContainersIdx (doc : Yaml) : Option Yaml := do
  let spec ← doc.idx "spec"
  let tmpl ← spec.idx "template"
  let pspec ← tmpl.idx "spec"
  pspec.idx "containers"

/-- Replace the containers list inside `spec.template.spec` (the in-place
effect of mutating each container object). -/
def putContainers (doc : Yaml) (cs : List Yaml) : Option Yaml :=
  match doc with
  | .map kvs =>
    match lookupKey kvs "spec" with
    | some (.map skvs) =>
      match lookupKey skvs "template" with
      | some (.map tkvs) =>
        match lookupKey tkvs "spec" with
        | some (.map pkvs) =>
          some (.map (setKey kvs "spec" (.map (setKey skvs "template"
            (.map (setKey tkvs "spec" (.map (setKey pkvs "containers" (.list cs)))))))))
        | _ => none
      | _ => none
    | _ => none
  | _ => none

/-- Body of the per-document loop of `_apply_optimizations`: skip falsy
documents and documents whose `metadata.name` differs from the change's
target; otherwise dispatch on the change type.  Unrecognized types fall
through silently (`modified` stays `False`).  Returns the (possibly
updated) document and the `modified` flag; `none` models an exception. -/
def applyChangeDoc (ctype target newv : Yaml) (doc : Yaml) : Option (Yaml × Bool) :=
  if !doc.truthy then some (doc, false)
  else
    match doc.get "metadata" (.map []) with
    | none => none
    | some md =>
      match md.get1 "name" with
      | none => none
      | some nm =>
        if !pyEq nm target then some (doc, false)
        else
          match doc.get1 "kind" with
          | none => none
          | some kind =>
            if kindIs ctype "reduce_replicas" && kindIs kind "Deployment" then
              match pyToInt newv with
              | none => none
              | some n =>
                match setSpecReplicas doc n with
                | none => none
                | some doc' => some (doc', true)
            else if kindIs ctype "reduce_cpu" && kindIs kind "Deployment" then
              match getContainersIdx doc with
              | none => none
              | some contV =>
                match pyIter contV with
                | none => none
                | some cs =>
                  match setRequestsAll "cpu" newv cs with
                  | none => none
                  | some cs' =>
                    match putContainers doc cs' with
                    | none => none
                    | some doc' => some (doc', true)
            else if kindIs ctype "reduce_memory" && kindIs kind "Deployment" then
              match getContainersIdx doc with
              | none => none
              | some contV =>
                match pyIter contV with
                | none => none
                | some cs =>
                  match setRequestsAll "memory" newv cs with
                  | none => none
                  | some cs' =>
                    match putContainers doc cs' with
                    | none => none
                    | some doc' => some (doc', true)
            else some (doc, false)

/-- The per-document loop over one file's documents, or-ing `modified`. -/
def applyChangeDocs (ctype target newv : Yaml) : List Yaml → Option (List Yaml × Bool)
  | [] => some ([], false)
  | d :: ds =>
    match applyChangeDoc ctype target newv d with
    | none => none
    | some (d', m) =>
      match applyChangeDocs ctype target newv ds with
      | none => none
      | some (ds', ms) => some (d' :: ds', m || ms)

/-- One change applied to one map entry: non-`.yaml` names and malformed
texts are skipped; an exception while editing leaves the entry untouched
(the `try` swallows it before `dump_all` runs); only a `modified` file is
re-serialised. -/
def applyChangeFile (ctype target newv : Yaml) (p : String × MFile) : String × MFile :=
  if !(strEndsWith p.1 ".yaml") then p
  else
    match p.2.docs with
    | none => p
    | some ds =>
      match applyChangeDocs ctype target newv ds with
      | none => p
      | some (ds', m) =>
        if m then (p.1, ⟨yamlDumpAll ds', some ds'⟩) else p

/-- Read the `type`, `target` and `to` fields of one change
(`change.get(...)`); `none` when the change is not a dict. -/
def changeFields (ch : Yaml) : Option (Yaml × Yaml × Yaml) := do
  let t ← ch.get1 "type"
  let tg ← ch.get1 "target"
  let nv ← ch.get1 "to"
  pure (t, tg, nv)

/-- One iteration of the outer loop of `_apply_optimizations`. -/
def applyOneChange (ms : Manifests) (ch : Yaml) : Option Manifests :=
  match changeFields ch with
  | none => none
  | some (t, tg, nv) => some (ms.map (applyChangeFile t tg nv))

/-- `_apply_optimizations(manifests, {"changes": changes})`.  `none` models
an exception escaping the function (a non-dict change). -/
def apply_optimizations (ms : Manifests) (changes : List Yaml) : Option Manifests :=
  changes.foldlM applyOneChange ms

/-! ### `SecurityAnalyzer._run_basic_checks`
(src/mcp_server/tools/security_analyzer.py, lines 72–170)

The scanner mutates a `checks` dict in place; a per-file `try` catches any
exception, keeping the mutations already made and moving to the next file.
A `Step` is one Python statement over that dict: it returns the new record
and `false` iff the statement raised. -/

/-- The `checks` record built by `_run_basic_checks`. -/
structure Checks where
  security_context_present : Bool := false
  run_as_non_root : Bool := false
  privileged_containers : List Yaml := []
  host_network_usage : List Yaml := []
  host_path_volumes : List Yaml := []
  secrets_in_env : List Yaml := []
  capabilities_added : List Yaml := []
  resource_limits_set : Bool := false
  readiness_probes_set : Bool := false
  liveness_probes_set : Bool := false
  network_policies_present : Bool := false
  service_account_set : Bool := false
  image_pull_policy : List Yaml := []
  trusted_registry : List Yaml := []
  deriving Repr, Inhabited

def initChecks : Checks := {}

/-- A Python statement over the mutable checks record. -/
abbrev Step := Checks → Checks × Bool

/-- Sequence two statements, stopping at the first raise. -/
def Step.seq (f g : Step) : Step := fun st =>
  let r := f st
  if r.2 then g r.1 else (r.1, false)

/-- Evaluate a pure Python expression (`none` = raise), then continue. -/
def Step.bindO {α : Type} (o : Option α) (k : α → Step) : Step := fun st =>
  match o with
  | none => (st, false)
  | some a => k a st

/-- An assignment / append to the checks record. -/
def Step.update (u : Checks → Checks) : Step := fun st => (u st, true)

def Step.skip : Step := fun st => (st, true)

def Step.fail : Step := fun st => (st, false)

/-- A `for` loop: run the body on each element in order. -/
def Step.forEach {α : Type} (body : α → Step) : List α → Step
  | [] => Step.skip
  | x :: xs => (body x).seq (Step.forEach body xs)

/-- Inner `for env in container.get("env", []):` body. -/
def envStep (nm cn : Yaml) (env : Yaml) : Step :=
  Step.bindO (env.get "name" (.str "")) fun nmv =>
  match nmv with
  | .str s =>
    let u := s.toUpper
    if containsSub "SECRET".data u.data || containsSub "PASSWORD".data u.data then
      Step.bindO (pyContains env "value") fun hasVal =>
      if hasVal then
        Step.bindO (env.idx "name") fun nv =>
        Step.update (fun st =>
          { st with secrets_in_env :=
              st.secrets_in_env ++ [.str (pyStr nm ++ "/" ++ pyStr cn ++ ": " ++ pyStr nv)] })
      else Step.skip
    else Step.skip
  | _ => Step.fail  -- `.upper()` on a non-string name

/-- `for container in spec.get("containers", []):` body. -/
def containerStep (nm : Yaml) (c : Yaml) : Step :=
  Step.bindO (c.get "name" (.str "unnamed")) fun cn =>
  -- Privileged
  (Step.bindO ((c.get "securityContext" (.map [])).bind (fun sc => sc.get1 "privileged")) fun priv =>
    if priv.truthy then
      Step.update (fun st =>
        { st with privileged_containers :=
            st.privileged_containers ++ [.str (pyStr nm ++ "/" ++ pyStr cn)] })
    else Step.skip).seq <|
  -- Capabilities
  (Step.bindO ((c.get "securityContext" (.map [])).bind
      (fun sc => (sc.get "capabilities" (.map [])).bind
      (fun cap => cap.get "add" (.list [])))) fun caps =>
    if caps.truthy then
      Step.bindO (pyIter caps) fun capList =>
      Step.update (fun st =>
        { st with capabilities_added :=
            st.capabilities_added ++
              capList.map (fun cap => .str (pyStr nm ++ "/" ++ pyStr cn ++ ": " ++ pyStr cap)) })
    else Step.skip).seq <|
  -- Resource limits
  (Step.bindO ((c.get "resources" (.map [])).bind (fun r => r.get1 "limits")) fun lim =>
    if lim.truthy then Step.update (fun st => { st with resource_limits_set := true })
    else Step.skip).seq <|
  -- Probes
  (Step.bindO (c.get1 "readinessProbe") fun p =>
    if p.truthy then Step.update (fun st => { st with readiness_probes_set := true })
    else Step.skip).seq <|
  (Step.bindO (c.get1 "livenessProbe") fun p =>
    if p.truthy then Step.update (fun st => { st with liveness_probes_set := true })
    else Step.skip).seq <|
  -- Image registry allow-list
  (Step.bindO (c.get "image" (.str "")) fun image =>
    if image.truthy then
      Step.bindO (pyContains image "registry.mts.ru") fun t1 =>
      if t1 then
        Step.update (fun st => { st with trusted_registry := st.trusted_registry ++ [image] })
      else
        Step.bindO (pyContains image "docker.io/library") fun t2 =>
        if t2 then
          Step.update (fun st => { st with trusted_registry := st.trusted_registry ++ [image] })
        else
          Step.update (fun st =>
            { st with image_pull_policy :=
                st.image_pull_policy ++ [.str (pyStr nm ++ ": " ++ pyStr image)] })
    else Step.skip).seq <|
  -- Hardcoded secrets in env
  (Step.bindO (c.get "env" (.list [])) fun envV =>
   Step.bindO (pyIter envV) fun envs =>
   Step.forEach (envStep nm cn) envs)

/-- `for volume in spec.get("volumes", []):` body. -/
def volumeStep (nm : Yaml) (vol : Yaml) : Step :=
  Step.bindO (vol.get1 "hostPath") fun hp =>
  if hp.truthy then
    Step.bindO ((vol.idx "hostPath").bind (fun h => h.idx "path")) fun pathv =>
    Step.update (fun st =>
      { st with host_path_volumes :=
          st.host_path_volumes ++ [.str (pyStr nm ++ ": " ++ pyStr pathv)] })
  else Step.skip

/-- The `spec.template.spec` chain `doc.get("spec", {}).get("template", {}).get("spec", {})`. -/
def podSpecOf (doc : Yaml) : Option Yaml := do
  let s ← doc.get "spec" (.map [])
  let t ← s.get "template" (.map [])
  t.get "spec" (.map [])

/-- Per-document body of `_run_basic_checks`. -/
def checkDoc (doc : Yaml) : Step :=
  if !doc.truthy then Step.skip
  else
    Step.bindO (doc.get1 "kind") fun kind =>
    Step.bindO ((doc.get "metadata" (.map [])).bind (fun md => md.get "name" (.str "unnamed"))) fun nm =>
    if kindIs kind "Deployment" then
      Step.bindO (podSpecOf doc) fun spec =>
      -- Pod-level security context
      (Step.bindO (spec.get "securityContext" (.map [])) fun ps =>
        if ps.truthy then
          (Step.update (fun st => { st with security_context_present := true })).seq
          (Step.bindO (ps.get1 "runAsNonRoot") fun r =>
            if r.truthy then Step.update (fun st => { st with run_as_non_root := true })
            else Step.skip)
        else Step.skip).seq <|
      -- Containers
      (Step.bindO (spec.get "containers" (.list [])) fun cv =>
       Step.bindO (pyIter cv) fun cs =>
       Step.forEach (containerStep nm) cs).seq <|
      -- Host network
      (Step.bindO (spec.get1 "hostNetwork") fun hn =>
        if hn.truthy then
          Step.update (fun st => { st with host_network_usage := st.host_network_usage ++ [nm] })
        else Step.skip).seq <|
      -- Host-path volumes
      (Step.bindO (spec.get "volumes" (.list [])) fun vv =>
       Step.bindO (pyIter vv) fun vols =>
       Step.forEach (volumeStep nm) vols).seq <|
      -- Service account
      (Step.bindO (spec.get1 "serviceAccountName") fun sa =>
        if sa.truthy then Step.update (fun st => { st with service_account_set := true })
        else Step.skip)
    else if kindIs kind "NetworkPolicy" then
      Step.update (fun st => { st with network_policies_present := true })
    else Step.skip

/-- Process one manifest map entry (non-`.yaml` names and parse failures
skipped, per-file exception caught with state kept). -/
def checkFile (st : Checks) (p : String × MFile) : Checks :=
  if !(strEndsWith p.1 ".yaml") then st
  else
    match p.2.docs with
    | none => st
    | some ds => (Step.forEach checkDoc ds st).1

/-- `_run_basic_checks(manifests)`. -/
def run_basic_checks (ms : Manifests) : Checks :=
  ms.foldl checkFile initChecks

/-! ### `SecurityAnalyzer._calculate_security_score` (lines 446–475)
and `_check_compliance` (lines 491–506) -/

/-- `_calculate_security_score(basic_checks, llm_analysis)`: start at 100,
subtract 15 per critical issue and 5 per warning plus the structural
deductions, clamp into `[0, 100]`. -/
def calculate_security_score (c : Checks) (critical_issues warnings : List Yaml) : ℤ :=
  let s : ℤ := 100
  let s := s - critical_issues.length * 15
  let s := s - warnings.length * 5
  let s := if !c.security_context_present then s - 10 else s
  let s := if !c.run_as_non_root then s - 10 else s
  let s := if !c.privileged_containers.isEmpty then s - 20 else s
  let s := if !c.secrets_in_env.isEmpty then s - 15 else s
  let s := if !c.resource_limits_set then s - 10 else s
  let s := if !c.network_policies_present then s - 10 else s
  max 0 (min 100 s)

/-- The compliance flags of `_check_compliance`. -/
structure Compliance where
  pod_security_baseline : Bool
  pod_security_restricted : Bool
  zero_trust_ready : Bool
  deriving Repr

/-- `_check_compliance(basic_checks)`. -/
def check_compliance (c : Checks) : Compliance where
  pod_security_baseline := c.security_context_present && c.privileged_containers.isEmpty
  pod_security_restricted := c.run_as_non_root && c.resource_limits_set && c.host_network_usage.isEmpty
  zero_trust_ready := c.network_policies_present && c.service_account_set

/-! ### `NetworkConfig` (src/mcp_server/config.py, lines 37–86)

`BASE_NETWORK` is configurable (env var, default `"10.100"`), so it is a
parameter here.  `str(index)` for a Python `int` is modelled by `zRepr`. -/

/-- Decimal digit character. -/
def digitChar : ℕ → Char
  | 0 => '0' | 1 => '1' | 2 => '2' | 3 => '3' | 4 => '4'
  | 5 => '5' | 6 => '6' | 7 => '7' | 8 => '8' | _ => '9'

/-- Decimal digits of a natural number, most significant first. -/
def natDecDigits (n : ℕ) : List Char :=
  if _h : n < 10 then [digitChar n]
  else natDecDigits (n / 10) ++ [digitChar (n % 10)]
  decreasing_by exact Nat.div_lt_self (by omega) (by omega)

/-- Python `str(i)` for an integer. -/
def zRepr (i : ℤ) : String :=
  if i < 0 then ⟨'-' :: natDecDigits (-i).toNat⟩ else ⟨natDecDigits i.toNat⟩

def NETWORK_CIDR : String := "/24"
def SUBNET_START_IP : String := "10"
def SUBNET_GATEWAY_IP : String := "1"
def BASE_NETWORK_default : String := "10.100"

/-- `NetworkConfig.get_subnet(index)` = `f"{base}.{index}.0{NETWORK_CIDR}"`. -/
def get_subnet (base : String) (index : ℤ) : String :=
  base ++ "." ++ zRepr index ++ ".0" ++ NETWORK_CIDR

/-- `NetworkConfig.get_ip(index)` = `f"{base}.{index}.{SUBNET_START_IP}"`. -/
def get_ip (base : String) (index : ℤ) : String :=
  base ++ "." ++ zRepr index ++ "." ++ SUBNET_START_IP

/-- `NetworkConfig.get_gateway(index)` = `f"{base}.{index}.{SUBNET_GATEWAY_IP}"`. -/
def get_gateway (base : String) (index : ℤ) : String :=
  base ++ "." ++ zRepr index ++ "." ++ SUBNET_GATEWAY_IP

/-! ### Octet decomposition (for stating the allocator invariants) -/

/-- Split a character list on a separator (Python `str.split(sep)`). -/
def splitOnChar (sep : Char) : List Char → List (List Char)
  | [] => [[]]
  | c :: cs =>
    if c = sep then [] :: splitOnChar sep cs
    else
      match splitOnChar sep cs with
      | [] => [[c]]
      | g :: gs => (c :: g) :: gs

/-- Value of a decimal digit list. -/
def natDecVal (cs : List Char) : ℕ :=
  cs.foldl (fun a c => 10 * a + (c.toNat - 48)) 0

/-- Parse an optionally-signed decimal digit list. -/
def zValOfChars : List Char → Option ℤ
  | '-' :: cs =>
    if cs ≠ [] ∧ cs.all Char.isDigit then some (-(natDecVal cs : ℤ)) else none
  | cs =>
    if cs ≠ [] ∧ cs.all Char.isDigit then some ((natDecVal cs : ℤ)) else none

/-- The third dot-separated octet of an address string, as an integer. -/
def thirdOctet (s : String) : Option ℤ :=
  match (splitOnChar '.' s.data)[2]? with
  | some cs => zValOfChars cs
  | none => none

/-! ### `TelecomGenerator.generate_networkattachmentdefinition_yaml`
(src/mcp_server/tools/telecom_generator.py, lines 459–506) -/

/-- `ip_part.rsplit('.', 1)[0]`: the prefix before the last dot (the whole
string when there is no dot). -/
def beforeLastDot (cs : List Char) : List Char :=
  match cs.reverse.dropWhile (fun c => c ≠ '.') with
  | [] => cs
  | _ :: rest => rest.reverse

/-- The NAD document body (the f-string of the source, with its literal JSON
braces), before `.strip()`. -/
def nadTemplate (network_name ns subnet base_ip : String) : String :=
  "\napiVersion: k8s.cni.cncf.io/v1\nkind: NetworkAttachmentDefinition\nmetadata:\n  name: "
  ++ network_name ++ "-network\n  namespace: " ++ ns
  ++ "\nspec:\n  config: |\n    \x7b\n      \"cniVersion\": \"0.3.1\",\n      \"type\": \"macvlan\",\n      \"master\": \"eth1\",\n      \"mode\": \"bridge\",\n      \"ipam\": \x7b\n        \"type\": \"host-local\",\n        \"subnet\": \""
  ++ subnet ++ "\",\n        \"rangeStart\": \"" ++ base_ip ++ ".10\",\n        \"rangeEnd\": \""
  ++ base_ip ++ ".100\",\n        \"gateway\": \"" ++ base_ip ++ ".1\"\n      \x7d\n    \x7d\n"

/-- Python `str.strip()`. -/
def pyStrip (s : String) : String := ⟨pyStripChars s.data⟩

/-- `generate_networkattachmentdefinition_yaml(network_name, namespace, subnet)`.
Validation: `subnet.split('/')` must have exactly two parts and the left part
must contain a dot; any raised error is re-raised as
`ValueError(f"Invalid subnet format: {subnet}")`.  Nothing else about the
subnet text is checked. -/
def generate_nad_yaml (network_name ns subnet : String) : Except String String :=
  match splitOnChar '/' subnet.data with
  | [ip_part, _cidr] =>
    if '.' ∈ ip_part then
      .ok (pyStrip (nadTemplate network_name ns subnet ⟨beforeLastDot ip_part⟩))
    else .error ("Invalid subnet format: " ++ subnet)
  | _ => .error ("Invalid subnet format: " ++ subnet)

/-- Spec-side predicate (from the spec's words, for comparison only):
"parseable as `a.b.c.d/n` with a dotted IPv4 address on the left" — four
dot-separated nonempty all-digit octets each at most 255, a slash, and a
nonempty all-digit prefix length. -/
def specIPv4CIDR (s : String) : Bool :=
  match splitOnChar '/' s.data with
  | [l, r] =>
    (match splitOnChar '.' l with
     | [a, b, c, d] =>
       [a, b, c, d].all (fun o => !o.isEmpty && o.all Char.isDigit && natDecVal o ≤ 255)
     | _ => false) &&
    (!r.isEmpty && r.all Char.isDigit)
  | _ => false

/-! ## Helper lemmas: digit strings and the float parser -/

theorem isWhitespace_eq_false_of_isDigit (c : Char) (h : c.isDigit = true) :
    c.isWhitespace = false := by
  simp only [Char.isDigit, ge_iff_le, Bool.and_eq_true, decide_eq_true_eq] at h
  obtain ⟨h1, h2⟩ := h
  simp only [Char.isWhitespace, Bool.or_eq_false_iff, decide_eq_false_iff_not]
  refine ⟨⟨⟨?_, ?_⟩, ?_⟩, ?_⟩ <;> rintro rfl <;> revert h1 h2 <;> decide

theorem pyStripChars_of_digits (cs : List Char) (h : cs.all Char.isDigit = true) :
    pyStripChars cs = cs := by
  have hws : ∀ l : List Char, l.all Char.isDigit = true → l.dropWhile Char.isWhitespace = l := by
    intro l hl
    cases l with
    | nil => rfl
    | cons c l =>
      rw [List.dropWhile_cons_of_neg]
      simp only [List.all_cons, Bool.and_eq_true] at hl
      simp [isWhitespace_eq_false_of_isDigit c hl.1]
  unfold pyStripChars
  rw [hws cs h]
  rw [hws cs.reverse (by simpa using h)]
  exact List.reverse_reverse cs

theorem floatAux_digits (cs : List Char) (a : ℚ) (h : cs.all Char.isDigit = true) :
    floatAux cs a none true =
      some (cs.foldl (fun x c => 10 * x + ((c.toNat - 48 : ℕ) : ℚ)) a) := by
  induction cs generalizing a with
  | nil => rfl
  | cons c cs ih =>
    simp only [List.all_cons, Bool.and_eq_true] at h
    rw [List.foldl_cons]
    unfold floatAux
    rw [if_pos h.1]
    exact ih _ h.2

theorem floatAux_digits_start (cs : List Char) (hne : cs ≠ [])
    (h : cs.all Char.isDigit = true) :
    floatAux cs 0 none false =
      some (cs.foldl (fun x c => 10 * x + ((c.toNat - 48 : ℕ) : ℚ)) 0) := by
  cases cs with
  | nil => exact absurd rfl hne
  | cons c cs =>
    simp only [List.all_cons, Bool.and_eq_true] at h
    rw [List.foldl_cons]
    unfold floatAux
    rw [if_pos h.1]
    exact floatAux_digits cs _ h.2

theorem foldl_digits_cast (cs : List Char) (a : ℕ) :
    cs.foldl (fun x c => 10 * x + ((c.toNat - 48 : ℕ) : ℚ)) (a : ℚ) =
      ((cs.foldl (fun x c => 10 * x + (c.toNat - 48)) a : ℕ) : ℚ) := by
  induction cs generalizing a with
  | nil => rfl
  | cons c cs ih =>
    rw [List.foldl_cons, List.foldl_cons]
    rw [show ((10 : ℚ) * a + ((c.toNat - 48 : ℕ) : ℚ)) = ((10 * a + (c.toNat - 48) : ℕ) : ℚ) by push_cast; ring]
    exact ih _

theorem digit_ne_chars (c : Char) (h : c.isDigit = true) :
    c ≠ '-' ∧ c ≠ '+' ∧ c ≠ 'm' ∧ c ≠ 'i' := by
  simp only [Char.isDigit, ge_iff_le, Bool.and_eq_true, decide_eq_true_eq] at h
  obtain ⟨h1, h2⟩ := h
  refine ⟨?_, ?_, ?_, ?_⟩ <;> rintro rfl <;> revert h1 h2 <;> decide

/-- On an all-digit string, Python `float` returns exactly the decimal value. -/
theorem pyFloatOfString_digits (cs : List Char) (hne : cs ≠ [])
    (h : cs.all Char.isDigit = true) :
    pyFloatOfString ⟨cs⟩ = some ((natDecVal cs : ℕ) : ℚ) := by
  unfold pyFloatOfString
  show (match pyStripChars cs with
    | '-' :: cs => (floatAux cs 0 none false).map Neg.neg
    | '+' :: cs => floatAux cs 0 none false
    | cs => floatAux cs 0 none false) = _
  rw [pyStripChars_of_digits cs h]
  have hval : floatAux cs 0 none false = some ((natDecVal cs : ℕ) : ℚ) := by
    rw [floatAux_digits_start cs hne h]
    unfold natDecVal
    rw [show (0 : ℚ) = ((0 : ℕ) : ℚ) by norm_num, foldl_digits_cast]
  cases cs with
  | nil => exact absurd rfl hne
  | cons c cs' =>
    simp only [List.all_cons, Bool.and_eq_true] at h
    obtain ⟨hc1, hc2, _, _⟩ := digit_ne_chars c h.1
    split
    · rename_i heq; rw [List.cons.injEq] at heq; exact absurd heq.1 hc1
    · rename_i heq; rw [List.cons.injEq] at heq; exact absurd heq.1 hc2
    · exact hval

/-! ## C5 — security score bounds -/

/-- C5: for every basic-checks record and every list of externally supplied
critical issues and warnings, the security score computed by starting at 100
and subtracting the fixed penalties lies within `[0, 100]`. -/
theorem security_score_in_range (c : Checks) (critical_issues warnings : List Yaml) :
    0 ≤ calculate_security_score c critical_issues warnings ∧
    calculate_security_score c critical_issues warnings ≤ 100 := by
  unfold calculate_security_score
  exact ⟨le_max_left 0 _, max_le (by norm_num) (min_le_left _ _)⟩

/-! ## C6 — unit conversions of the resource-quantity parser -/

theorem parse_cpu_milli (cs : List Char) (hne : cs ≠ [])
    (hdig : cs.all Char.isDigit = true) :
    parse_cpu_str (⟨cs⟩ ++ "m") = some ((natDecVal cs : ℚ) / 1000) := by
  unfold parse_cpu_str
  rw [show ((⟨cs⟩ : String) ++ "m").data = cs ++ ['m'] from rfl]
  rw [List.getLast?_concat, List.dropLast_concat]
  rw [pyFloatOfString_digits cs hne hdig]
  rfl

theorem parse_cpu_bare (cs : List Char) (hne : cs ≠ [])
    (hdig : cs.all Char.isDigit = true) :
    parse_cpu_str ⟨cs⟩ = some ((natDecVal cs : ℚ)) := by
  unfold parse_cpu_str
  split
  · rename_i heq
    rw [show (String.mk cs).data = cs from rfl] at heq
    have hm : 'm' ∈ cs := List.mem_of_getLast?_eq_some heq
    exact absurd rfl (digit_ne_chars 'm' (List.all_eq_true.mp hdig _ hm)).2.2.1
  · exact pyFloatOfString_digits cs hne hdig

theorem parse_memory_Ki (cs : List Char) (hne : cs ≠ [])
    (hdig : cs.all Char.isDigit = true) :
    parse_memory_str (⟨cs⟩ ++ "Ki") = some ((natDecVal cs : ℚ) * (1 / (1024 * 1024))) := by
  unfold parse_memory_str
  rw [show ((⟨cs⟩ : String) ++ "Ki").data = cs ++ ['K', 'i'] from rfl]
  rw [show (cs ++ ['K', 'i']).reverse = 'i' :: 'K' :: cs.reverse by simp]
  show (pyFloatOfString ⟨cs.reverse.reverse⟩).map (· * (1 / (1024 * 1024))) = _
  rw [List.reverse_reverse, pyFloatOfString_digits cs hne hdig]
  rfl

theorem parse_memory_Mi (cs : List Char) (hne : cs ≠ [])
    (hdig : cs.all Char.isDigit = true) :
    parse_memory_str (⟨cs⟩ ++ "Mi") = some ((natDecVal cs : ℚ) * (1 / 1024)) := by
  unfold parse_memory_str
  rw [show ((⟨cs⟩ : String) ++ "Mi").data = cs ++ ['M', 'i'] from rfl]
  rw [show (cs ++ ['M', 'i']).reverse = 'i' :: 'M' :: cs.reverse by simp]
  show (pyFloatOfString ⟨cs.reverse.reverse⟩).map (· * (1 / 1024)) = _
  rw [List.reverse_reverse, pyFloatOfString_digits cs hne hdig]
  rfl

theorem parse_memory_Gi (cs : List Char) (hne : cs ≠ [])
    (hdig : cs.all Char.isDigit = true) :
    parse_memory_str (⟨cs⟩ ++ "Gi") = some ((natDecVal cs : ℚ) * 1) := by
  unfold parse_memory_str
  rw [show ((⟨cs⟩ : String) ++ "Gi").data = cs ++ ['G', 'i'] from rfl]
  rw [show (cs ++ ['G', 'i']).reverse = 'i' :: 'G' :: cs.reverse by simp]
  show (pyFloatOfString ⟨cs.reverse.reverse⟩).map (· * 1) = _
  rw [List.reverse_reverse, pyFloatOfString_digits cs hne hdig]
  rfl

theorem parse_memory_Ti (cs : List Char) (hne : cs ≠ [])
    (hdig : cs.all Char.isDigit = true) :
    parse_memory_str (⟨cs⟩ ++ "Ti") = some ((natDecVal cs : ℚ) * 1024) := by
  unfold parse_memory_str
  rw [show ((⟨cs⟩ : String) ++ "Ti").data = cs ++ ['T', 'i'] from rfl]
  rw [show (cs ++ ['T', 'i']).reverse = 'i' :: 'T' :: cs.reverse by simp]
  show (pyFloatOfString ⟨cs.reverse.reverse⟩).map (· * 1024) = _
  rw [List.reverse_reverse, pyFloatOfString_digits cs hne hdig]
  rfl

theorem parse_memory_bare (cs : List Char) (hne : cs ≠ [])
    (hdig : cs.all Char.isDigit = true) :
    parse_memory_str ⟨cs⟩ = some ((natDecVal cs : ℚ)) := by
  unfold parse_memory_str
  have hhead : ∀ c rest, (String.mk cs).data.reverse = c :: rest → c ≠ 'i' := by
    intro c rest hrev
    rw [show (String.mk cs).data = cs from rfl] at hrev
    have hc : c ∈ cs := by
      have : c ∈ cs.reverse := by rw [hrev]; exact List.mem_cons_self c rest
      simpa using this
    exact (digit_ne_chars c (List.all_eq_true.mp hdig _ hc)).2.2.2
  split
  · rename_i heq; exact absurd rfl (hhead _ _ heq)
  · rename_i heq; exact absurd rfl (hhead _ _ heq)
  · rename_i heq; exact absurd rfl (hhead _ _ heq)
  · rename_i heq; exact absurd rfl (hhead _ _ heq)
  · exact pyFloatOfString_digits cs hne hdig

/-- C6: for every natural number `N` (given through its decimal digit string
`s`), `parse_cpu` maps `"<N>m"` to `N / 1000` and the bare `"<N>"` to `N`;
`parse_memory` maps the suffixes `Ki`, `Mi`, `Gi`, `Ti` to `2⁻²⁰`, `2⁻¹⁰`,
`1`, `2¹⁰` gigabytes (so `"1024Mi"` and `"1Gi"` parse to the same value), and
a numeric string with no recognized suffix is taken as gigabytes. -/
theorem parse_units (N : ℕ) (s : String)
    (hne : s.data ≠ []) (hdig : s.data.all Char.isDigit = true)
    (hval : natDecVal s.data = N) :
    parse_cpu (.str (s ++ "m")) = some ((N : ℚ) / 1000) ∧
    parse_cpu (.str s) = some (N : ℚ) ∧
    parse_memory (.str (s ++ "Ki")) = some ((N : ℚ) / 2 ^ 20) ∧
    parse_memory (.str (s ++ "Mi")) = some ((N : ℚ) / 2 ^ 10) ∧
    parse_memory (.str (s ++ "Gi")) = some (N : ℚ) ∧
    parse_memory (.str (s ++ "Ti")) = some ((N : ℚ) * 2 ^ 10) ∧
    parse_memory (.str "1024Mi") = parse_memory (.str "1Gi") ∧
    parse_memory (.str s) = some (N : ℚ) := by
  obtain ⟨cs⟩ := s
  simp only [String.data] at hne hdig hval
  subst hval
  have h1024 : parse_memory (.str "1024Mi") = parse_memory (.str "1Gi") := by
    show parse_memory_str "1024Mi" = parse_memory_str "1Gi"
    rw [show ("1024Mi" : String) = (⟨"1024".data⟩ : String) ++ "Mi" from rfl]
    rw [show ("1Gi" : String) = (⟨"1".data⟩ : String) ++ "Gi" from rfl]
    rw [parse_memory_Mi _ (by decide) (by decide), parse_memory_Gi _ (by decide) (by decide)]
    norm_num [natDecVal, show ('1'.toNat - 48 : ℕ) = 1 from rfl,
      show ('0'.toNat - 48 : ℕ) = 0 from rfl, show ('2'.toNat - 48 : ℕ) = 2 from rfl,
      show ('4'.toNat - 48 : ℕ) = 4 from rfl]
  refine ⟨?_, parse_cpu_bare cs hne hdig, ?_, ?_, ?_, ?_, h1024, parse_memory_bare cs hne hdig⟩
  · rw [show parse_cpu (.str (⟨cs⟩ ++ "m")) = parse_cpu_str (⟨cs⟩ ++ "m") from rfl,
      parse_cpu_milli cs hne hdig]
  · rw [show parse_memory (.str (⟨cs⟩ ++ "Ki")) = parse_memory_str (⟨cs⟩ ++ "Ki") from rfl,
      parse_memory_Ki cs hne hdig]
    simp only [Option.some.injEq]
    ring
  · rw [show parse_memory (.str (⟨cs⟩ ++ "Mi")) = parse_memory_str (⟨cs⟩ ++ "Mi") from rfl,
      parse_memory_Mi cs hne hdig]
    simp only [Option.some.injEq]
    ring
  · rw [show parse_memory (.str (⟨cs⟩ ++ "Gi")) = parse_memory_str (⟨cs⟩ ++ "Gi") from rfl,
      parse_memory_Gi cs hne hdig]
    simp only [Option.some.injEq]
    ring
  · rw [show parse_memory (.str (⟨cs⟩ ++ "Ti")) = parse_memory_str (⟨cs⟩ ++ "Ti") from rfl,
      parse_memory_Ti cs hne hdig]
    simp only [Option.some.injEq]
    ring

/-- C6 witness: the conversions evaluated at the concrete decimal string "2". -/
theorem parse_units_witness :
    parse_cpu (.str ("2" ++ "m")) = some ((2 : ℚ) / 1000) ∧
    parse_cpu (.str "2") = some (2 : ℚ) ∧
    parse_memory (.str ("2" ++ "Ki")) = some ((2 : ℚ) / 2 ^ 20) ∧
    parse_memory (.str ("2" ++ "Mi")) = some ((2 : ℚ) / 2 ^ 10) ∧
    parse_memory (.str ("2" ++ "Gi")) = some (2 : ℚ) ∧
    parse_memory (.str ("2" ++ "Ti")) = some ((2 : ℚ) * 2 ^ 10) ∧
    parse_memory (.str "1024Mi") = parse_memory (.str "1Gi") ∧
    parse_memory (.str "2") = some (2 : ℚ) :=
  parse_units 2 "2" (by decide) (by decide) (by decide)

/-! ## C7 — address allocator: distinctness and monotonicity -/

theorem digitChar_isDigit (d : ℕ) : (digitChar d).isDigit = true := by
  unfold digitChar; split <;> decide

theorem digitChar_toNat (d : ℕ) (h : d < 10) : (digitChar d).toNat = 48 + d := by
  interval_cases d <;> rfl

theorem natDecDigits_ne_nil (n : ℕ) : natDecDigits n ≠ [] := by
  unfold natDecDigits; split
  · simp
  · simp

theorem natDecDigits_all_digit (n : ℕ) : (natDecDigits n).all Char.isDigit = true := by
  induction n using Nat.strong_induction_on with
  | _ n ih =>
    unfold natDecDigits; split
    · simp [digitChar_isDigit]
    · rename_i h
      rw [List.all_append, Bool.and_eq_true]
      exact ⟨ih _ (Nat.div_lt_self (by omega) (by omega)), by simp [digitChar_isDigit]⟩

theorem natDecVal_digits (n : ℕ) : natDecVal (natDecDigits n) = n := by
  induction n using Nat.strong_induction_on with
  | _ n ih =>
    unfold natDecDigits natDecVal
    split
    · rename_i h
      simp only [List.foldl_cons, List.foldl_nil]
      rw [digitChar_toNat n h]
      omega
    · rename_i h
      rw [List.foldl_append]
      have hdv : List.foldl (fun x c => 10 * x + (c.toNat - 48)) 0 (natDecDigits (n / 10)) = n / 10 :=
        ih _ (Nat.div_lt_self (by omega) (by omega))
      unfold natDecVal at hdv
      rw [hdv]
      simp only [List.foldl_cons, List.foldl_nil]
      rw [digitChar_toNat (n % 10) (Nat.mod_lt n (by omega))]
      omega

theorem natDecDigits_head_digit (n : ℕ) (c : Char) (rest : List Char)
    (h : natDecDigits n = c :: rest) : c.isDigit = true := by
  have := natDecDigits_all_digit n
  rw [h] at this
  simp only [List.all_cons, Bool.and_eq_true] at this
  exact this.1

theorem digit_not_special (c : Char) (h : c.isDigit = true) :
    c ≠ '-' ∧ c ≠ '.' ∧ c ≠ '/' := by
  simp only [Char.isDigit, ge_iff_le, Bool.and_eq_true, decide_eq_true_eq] at h
  obtain ⟨h1, h2⟩ := h
  refine ⟨?_, ?_, ?_⟩ <;> rintro rfl <;> revert h1 h2 <;> decide

theorem zValOfChars_natDecDigits (n : ℕ) : zValOfChars (natDecDigits n) = some (n : ℤ) := by
  unfold zValOfChars
  split
  · rename_i heq
    have := natDecDigits_head_digit n '-' _ heq
    exact absurd rfl ((digit_not_special '-' this).1)
  · rw [if_pos ⟨natDecDigits_ne_nil n, natDecDigits_all_digit n⟩]
    rw [natDecVal_digits n]

theorem zRepr_val (i : ℤ) : zValOfChars (zRepr i).data = some i := by
  unfold zRepr
  split
  · rename_i h
    show zValOfChars ('-' :: natDecDigits (-i).toNat) = some i
    show (if natDecDigits (-i).toNat ≠ [] ∧ (natDecDigits (-i).toNat).all Char.isDigit = true
        then some (-(natDecVal (natDecDigits (-i).toNat) : ℤ)) else none) = some i
    rw [if_pos ⟨natDecDigits_ne_nil _, natDecDigits_all_digit _⟩]
    rw [natDecVal_digits]
    congr 1
    omega
  · rename_i h
    show zValOfChars (natDecDigits i.toNat) = some i
    rw [zValOfChars_natDecDigits]
    congr 1
    omega

theorem zRepr_no_dot (i : ℤ) : '.' ∉ (zRepr i).data := by
  have hdig : ∀ c ∈ natDecDigits (i.natAbs), c ≠ '.' := by
    intro c hc
    have := List.all_eq_true.mp (natDecDigits_all_digit i.natAbs) _ hc
    exact (digit_not_special c this).2.1
  unfold zRepr
  split
  · rename_i h
    show '.' ∉ '-' :: natDecDigits (-i).toNat
    rw [show (-i).toNat = i.natAbs by omega]
    intro hmem
    rcases List.mem_cons.mp hmem with h' | h'
    · exact absurd h'.symm (by decide)
    · exact hdig _ h' rfl
  · rename_i h
    show '.' ∉ natDecDigits i.toNat
    rw [show i.toNat = i.natAbs by omega]
    intro hmem
    exact hdig _ hmem rfl

theorem zRepr_inj (i j : ℤ) (h : (zRepr i).data = (zRepr j).data) : i = j := by
  have := zRepr_val i
  rw [h, zRepr_val j] at this
  exact (Option.some.injEq _ _).mp this.symm

theorem splitOnChar_cons (sep c : Char) (cs : List Char) :
    splitOnChar sep (c :: cs) =
      if c = sep then [] :: splitOnChar sep cs
      else match splitOnChar sep cs with
        | [] => [[c]]
        | g :: gs => (c :: g) :: gs := rfl

theorem splitOnChar_ne_nil (sep : Char) (cs : List Char) : splitOnChar sep cs ≠ [] := by
  induction cs with
  | nil => simp [splitOnChar]
  | cons c cs ih =>
    rw [splitOnChar_cons]
    split
    · simp
    · cases hs : splitOnChar sep cs with
      | nil => exact absurd hs ih
      | cons g gs => simp

theorem splitOnChar_append_sep (sep : Char) (a b : List Char) (ha : sep ∉ a) :
    splitOnChar sep (a ++ sep :: b) = a :: splitOnChar sep b := by
  induction a with
  | nil => simp [splitOnChar]
  | cons c a ih =>
    have hc : ¬ c = sep := fun h => ha (h ▸ List.mem_cons_self c a)
    show splitOnChar sep (c :: (a ++ sep :: b)) = (c :: a) :: splitOnChar sep b
    rw [splitOnChar_cons, if_neg hc, ih (fun h => ha (List.mem_cons_of_mem c h))]

theorem splitOnChar_no_sep (sep : Char) (cs : List Char) (h : sep ∉ cs) :
    splitOnChar sep cs = [cs] := by
  induction cs with
  | nil => rfl
  | cons c cs ih =>
    have hc : ¬ c = sep := fun h' => h (h' ▸ List.mem_cons_self c cs)
    rw [splitOnChar_cons, if_neg hc, ih (fun h' => h (List.mem_cons_of_mem c h'))]

theorem get_ip_data (base : String) (i : ℤ) :
    (get_ip base i).data = base.data ++ '.' :: ((zRepr i).data ++ '.' :: ['1', '0']) := by
  simp [get_ip, SUBNET_START_IP, String.data_append,
    show ("." : String).data = ['.'] from rfl, show ("10" : String).data = ['1', '0'] from rfl]

theorem get_subnet_data (base : String) (i : ℤ) :
    (get_subnet base i).data = base.data ++ '.' :: ((zRepr i).data ++ '.' :: ['0', '/', '2', '4']) := by
  simp [get_subnet, NETWORK_CIDR, String.data_append,
    show ("." : String).data = ['.'] from rfl, show (".0" : String).data = ['.', '0'] from rfl,
    show ("/24" : String).data = ['/', '2', '4'] from rfl]

theorem thirdOctet_get_ip (i : ℤ) :
    thirdOctet (get_ip BASE_NETWORK_default i) = some i := by
  unfold thirdOctet
  rw [get_ip_data]
  rw [show (BASE_NETWORK_default.data ++ '.' :: ((zRepr i).data ++ '.' :: ['1', '0']))
      = ['1', '0'] ++ '.' :: (['1', '0', '0'] ++ '.' :: ((zRepr i).data ++ '.' :: ['1', '0'])) from rfl]
  rw [splitOnChar_append_sep '.' ['1', '0'] _ (by decide)]
  rw [splitOnChar_append_sep '.' ['1', '0', '0'] _ (by decide)]
  rw [splitOnChar_append_sep '.' (zRepr i).data _ (zRepr_no_dot i)]
  rw [splitOnChar_no_sep '.' ['1', '0'] (by decide)]
  show zValOfChars (zRepr i).data = some i
  exact zRepr_val i

/-- C7: for every base network prefix and all integer indices `i ≠ j`, the
allocator's `get_ip` and `get_subnet` values differ, and the third octet of a
generated address (under the default base `"10.100"`) is the index itself, so
addresses increase monotonically with the index within the third octet. -/
theorem allocator_distinct_monotone (base : String) (i j : ℤ) (hij : i ≠ j) :
    get_ip base i ≠ get_ip base j ∧
    get_subnet base i ≠ get_subnet base j ∧
    thirdOctet (get_ip BASE_NETWORK_default i) = some i ∧
    (i < j → ∃ a b : ℤ, thirdOctet (get_ip BASE_NETWORK_default i) = some a ∧
      thirdOctet (get_ip BASE_NETWORK_default j) = some b ∧ a < b) := by
  refine ⟨?_, ?_, thirdOctet_get_ip i, ?_⟩
  · intro h
    have hd : (get_ip base i).data = (get_ip base j).data := by rw [h]
    rw [get_ip_data, get_ip_data] at hd
    have h1 := List.append_cancel_left hd
    rw [List.cons.injEq] at h1
    have h2 := List.append_cancel_right h1.2
    exact hij (zRepr_inj i j h2)
  · intro h
    have hd : (get_subnet base i).data = (get_subnet base j).data := by rw [h]
    rw [get_subnet_data, get_subnet_data] at hd
    have h1 := List.append_cancel_left hd
    rw [List.cons.injEq] at h1
    have h2 := List.append_cancel_right h1.2
    exact hij (zRepr_inj i j h2)
  · intro hlt
    exact ⟨i, j, thirdOctet_get_ip i, thirdOctet_get_ip j, hlt⟩

/-- C7 witness: distinctness and monotonicity at the default base with
indices 0 and 1. -/
theorem allocator_distinct_monotone_witness :
    get_ip "10.100" 0 ≠ get_ip "10.100" 1 ∧
    get_subnet "10.100" 0 ≠ get_subnet "10.100" 1 ∧
    thirdOctet (get_ip BASE_NETWORK_default 0) = some 0 ∧
    ((0 : ℤ) < 1 → ∃ a b : ℤ, thirdOctet (get_ip BASE_NETWORK_default 0) = some a ∧
      thirdOctet (get_ip BASE_NETWORK_default 1) = some b ∧ a < b) :=
  allocator_distinct_monotone "10.100" 0 1 (by decide)

/-! ## C2 — network-attachment subnet validation -/

/-- The two checks the source actually performs on the subnet text: exactly
one slash, and a dot somewhere left of it. -/
def nadSubnetOk (subnet : String) : Bool :=
  match splitOnChar '/' subnet.data with
  | [ip_part, _cidr] => '.' ∈ ip_part
  | _ => false

/-- C2 counterexample: the subnet `"ab.cd/24"` is not parseable as
`a.b.c.d/n` with a dotted IPv4 address on the left (non-numeric octets, only
two of them), yet `generate_networkattachmentdefinition_yaml` raises no
validation failure and produces an attachment document for it. -/
theorem nad_nonnumeric_octet_accepted :
    specIPv4CIDR "ab.cd/24" = false ∧
    ∃ out, generate_nad_yaml "n3" "telecom" "ab.cd/24" = Except.ok out :=
  ⟨by decide, ⟨_, rfl⟩⟩

/-- C2 (amended): `generate_networkattachmentdefinition_yaml` raises its
validation failure — immediately, with no retry — exactly when the subnet
string does not split on `/` into exactly two parts or the part left of the
slash contains no dot; any other string (numeric or not) yields an
attachment document. -/
theorem nad_validation (network_name ns subnet : String) :
    ((∃ out, generate_nad_yaml network_name ns subnet = Except.ok out) ↔
      nadSubnetOk subnet = true) ∧
    (nadSubnetOk subnet = false →
      generate_nad_yaml network_name ns subnet =
        Except.error ("Invalid subnet format: " ++ subnet)) := by
  unfold generate_nad_yaml nadSubnetOk
  rcases hsp : splitOnChar '/' subnet.data with _ | ⟨a, _ | ⟨b, _ | ⟨c, rest⟩⟩⟩
  · exact ⟨⟨fun ⟨out, h⟩ => by simp at h, fun h => by simp at h⟩, fun _ => rfl⟩
  · exact ⟨⟨fun ⟨out, h⟩ => by simp at h, fun h => by simp at h⟩, fun _ => rfl⟩
  · by_cases hd : '.' ∈ a
    · refine ⟨⟨fun _ => by simp [hd], fun _ =>
        ⟨pyStrip (nadTemplate network_name ns subnet ⟨beforeLastDot a⟩), by simp [hd]⟩⟩,
        fun hfalse => by simp [hd] at hfalse⟩
    · refine ⟨⟨fun ⟨out, hout⟩ => by simp [hd] at hout, fun htrue => by simp [hd] at htrue⟩,
        fun _ => by simp [hd]⟩
  · exact ⟨⟨fun ⟨out, h⟩ => by simp at h, fun h => by simp at h⟩, fun _ => rfl⟩

/-- C2 witness: a subnet with no slash is rejected with the validation error. -/
theorem nad_validation_witness :
    generate_nad_yaml "n3" "telecom" "abc" =
      Except.error ("Invalid subnet format: " ++ "abc") :=
  (nad_validation "n3" "telecom" "abc").2 (by decide)

/-! ## C4 — unknown optimization-change types are silently ignored -/

theorem applyChangeDoc_unknown (ctype target newv doc : Yaml)
    (h : (kindIs ctype "reduce_replicas" || kindIs ctype "reduce_cpu" ||
          kindIs ctype "reduce_memory") = false) :
    applyChangeDoc ctype target newv doc = none ∨
    applyChangeDoc ctype target newv doc = some (doc, false) := by
  simp only [Bool.or_eq_false_iff] at h
  unfold applyChangeDoc
  split
  · right; rfl
  · split
    · left; rfl
    · split
      · left; rfl
      · split
        · right; rfl
        · split
          · left; rfl
          · split
            · rename_i hcond; rw [h.1.1] at hcond; simp at hcond
            · split
              · rename_i hcond; rw [h.1.2] at hcond; simp at hcond
              · split
                · rename_i hcond; rw [h.2] at hcond; simp at hcond
                · right; rfl

theorem applyChangeDocs_unknown (ctype target newv : Yaml) (ds : List Yaml)
    (h : (kindIs ctype "reduce_replicas" || kindIs ctype "reduce_cpu" ||
          kindIs ctype "reduce_memory") = false) :
    applyChangeDocs ctype target newv ds = none ∨
    applyChangeDocs ctype target newv ds = some (ds, false) := by
  induction ds with
  | nil => right; rfl
  | cons d ds ih =>
    unfold applyChangeDocs
    rcases applyChangeDoc_unknown ctype target newv d h with hd | hd
    · rw [hd]; left; rfl
    · rw [hd]
      rcases ih with hds | hds
      · rw [hds]; left; rfl
      · rw [hds]; right; rfl

theorem applyChangeFile_unknown (ctype target newv : Yaml) (p : String × MFile)
    (h : (kindIs ctype "reduce_replicas" || kindIs ctype "reduce_cpu" ||
          kindIs ctype "reduce_memory") = false) :
    applyChangeFile ctype target newv p = p := by
  unfold applyChangeFile
  split
  · rfl
  · cases hd : p.2.docs with
    | none => rfl
    | some ds =>
      show (match applyChangeDocs ctype target newv ds with
        | none => p
        | some (ds', m) =>
          if m then (p.1, ⟨yamlDumpAll ds', some ds'⟩) else p) = p
      rcases applyChangeDocs_unknown ctype target newv ds h with hds | hds
      · rw [hds]
      · rw [hds]
        rfl

/-- C4 (amended): `_apply_optimizations` applies only the type tags
`reduce_replicas`, `reduce_cpu` and `reduce_memory`; a change whose type tag
is anything else — including the advertised `enable_spot` and `optimize_hpa`
— is silently ignored: every document is returned unchanged and no failure is
reported to the caller. -/
theorem unknown_change_type_ignored (ms : Manifests) (ctype target newv : Yaml)
    (h : (kindIs ctype "reduce_replicas" || kindIs ctype "reduce_cpu" ||
          kindIs ctype "reduce_memory") = false) :
    apply_optimizations ms
      [.map [("type", ctype), ("target", target), ("to", newv)]] = some ms := by
  have hmap : ∀ l : Manifests, l.map (applyChangeFile ctype target newv) = l := by
    intro l
    induction l with
    | nil => rfl
    | cons p l ih => rw [List.map_cons, applyChangeFile_unknown ctype target newv p h, ih]
  unfold apply_optimizations
  rw [List.foldlM_cons]
  rw [show applyOneChange ms (.map [("type", ctype), ("target", target), ("to", newv)]) =
      some (ms.map (applyChangeFile ctype target newv)) from rfl]
  rw [hmap ms]
  rfl

/-- C4 counterexample: a change with the unrecognized type tag
`"frobnicate"` targeting an existing Deployment is not reported as a
failure; the call succeeds and returns every document unchanged. -/
theorem unknown_change_type_counterexample :
    apply_optimizations
      [("deployment.yaml",
        ⟨"raw", some [.map [("kind", .str "Deployment"),
                           ("metadata", .map [("name", .str "app")]),
                           ("spec", .map [("replicas", .int 3)])]]⟩)]
      [.map [("type", .str "frobnicate"), ("target", .str "app"), ("to", .int 1)]] =
    some [("deployment.yaml",
        ⟨"raw", some [.map [("kind", .str "Deployment"),
                           ("metadata", .map [("name", .str "app")]),
                           ("spec", .map [("replicas", .int 3)])]]⟩)] := by rfl

/-! ## Rounding lemmas -/

theorem pyRound2_zero : pyRound2 0 = 0 := by
  unfold pyRound2 roundHalfEven
  norm_num

theorem roundHalfEven_ge (q : ℚ) (n : ℤ) (h : n ≤ ⌊q⌋) : n ≤ roundHalfEven q := by
  unfold roundHalfEven
  dsimp only
  split_ifs <;> omega

theorem pyRound2_pos (q : ℚ) (h : 1 ≤ q) : 0 < pyRound2 q := by
  have h1 : (100 : ℚ) ≤ q * 100 := by linarith
  have h2 : (100 : ℤ) ≤ ⌊q * 100⌋ := Int.le_floor.mpr (by exact_mod_cast h1)
  have h3 : (100 : ℤ) ≤ roundHalfEven (q * 100) := roundHalfEven_ge _ _ h2
  unfold pyRound2
  have h4 : (0 : ℚ) < ((roundHalfEven (q * 100) : ℤ) : ℚ) := by exact_mod_cast by omega
  exact div_pos h4 (by norm_num)

theorem parse_cpu_str_eq (s : String) : parse_cpu (.str s) = parse_cpu_str s := rfl

theorem parse_memory_str_eq (s : String) : parse_memory (.str s) = parse_memory_str s := rfl

/-! ## C1 — storage-claim documents contribute nothing to the cost -/

/-- C1 (code bug): in `_calculate_current_cost`, the `PersistentVolumeClaim`
branch sits inside the body that is only reached when `kind == "Deployment"`,
so it can never fire: a document set holding one storage claim requesting
`100Gi` — which the spec prices at `100 × 50 = 5000` — costs exactly `0`.
(The first conjunct shows the intended non-zero ingredient: the requested
storage does parse to 100 GB.) -/
theorem pvc_storage_not_billed :
    parse_memory (.str "100Gi") = some 100 ∧
    calculate_current_cost [("pvc.yaml",
      ⟨"raw", some [.map [("kind", .str "PersistentVolumeClaim"),
        ("metadata", .map [("name", .str "upf-pvc")]),
        ("spec", .map [("resources", .map [("requests",
          .map [("storage", .str "100Gi")])])])]]⟩)] = 0 := by
  constructor
  · rw [show ("100Gi" : String) = (⟨"100".data⟩ : String) ++ "Gi" from rfl]
    rw [parse_memory_str_eq, parse_memory_Gi _ (by decide) (by decide)]
    rw [show natDecVal "100".data = 100 from rfl]
    norm_num
  · show pyRound2 (0 + (0 + 0)) = 0
    rw [show ((0 : ℚ) + (0 + 0)) = 0 by norm_num]
    exact pyRound2_zero

/-! ## C9 — default billing of containers without resource requests -/

theorem parse_cpu_100m : parse_cpu (.str "100m") = some ((100 : ℚ) / 1000) := by
  rw [show ("100m" : String) = (⟨"100".data⟩ : String) ++ "m" from rfl]
  rw [parse_cpu_str_eq, parse_cpu_milli _ (by decide) (by decide)]
  rw [show natDecVal "100".data = 100 from rfl]
  norm_num

theorem parse_memory_128Mi : parse_memory (.str "128Mi") = some ((128 : ℚ) * (1 / 1024)) := by
  rw [show ("128Mi" : String) = (⟨"128".data⟩ : String) ++ "Mi" from rfl]
  rw [parse_memory_str_eq, parse_memory_Mi _ (by decide) (by decide)]
  rw [show natDecVal "128".data = 128 from rfl]
  norm_num

/-- A container whose `resources.requests` lookups fall back to the defaults
is billed `100m` CPU and `128Mi` memory per replica. -/
theorem containerCost_defaults (replV : Yaml) (r : ℚ) (c res req : Yaml)
    (hres : c.get "resources" (.map []) = some res)
    (hreq : res.get "requests" (.map []) = some req)
    (hcpu : req.get "cpu" (.str "100m") = some (.str "100m"))
    (hmem : req.get "memory" (.str "128Mi") = some (.str "128Mi"))
    (hr : pyNum replV = some r) :
    containerCost replV c = (225 * r, true) := by
  unfold containerCost
  simp only [hres, hreq, hcpu, hmem, hr, parse_cpu_100m, parse_memory_128Mi]
  rw [show (100 : ℚ) / 1000 * pricing_cpu_core * r + 128 * (1 / 1024) * pricing_memory_gb * r
      = 225 * r by unfold pricing_cpu_core pricing_memory_gb; ring]

theorem containersCost_defaults (replV : Yaml) (r : ℚ) (cs : List Yaml)
    (hr : pyNum replV = some r)
    (hall : ∀ c ∈ cs, ∃ res req, c.get "resources" (.map []) = some res ∧
      res.get "requests" (.map []) = some req ∧
      req.get "cpu" (.str "100m") = some (.str "100m") ∧
      req.get "memory" (.str "128Mi") = some (.str "128Mi")) :
    containersCost replV cs = (225 * r * cs.length, true) := by
  induction cs with
  | nil => unfold containersCost; norm_num
  | cons c cs ih =>
    obtain ⟨res, req, h1, h2, h3, h4⟩ := hall c (List.mem_cons_self c cs)
    unfold containersCost
    rw [containerCost_defaults replV r c res req h1 h2 h3 h4 hr]
    rw [ih (fun c hc => hall c (List.mem_cons_of_mem _ hc))]
    simp only [List.length_cons]
    rw [show (225 * r + 225 * r * (cs.length : ℚ)) = 225 * r * ((cs.length : ℕ) + 1 : ℕ) by
      push_cast; ring]
    simp

/-- Shared computation: the cost of a single-file document set holding one
Deployment all of whose containers are billed at the default requests. -/
theorem cost_single_default_deployment (fn raw : String) (doc spec replV tmpl podSpec : Yaml)
    (r : ℤ) (cs : List Yaml)
    (hfn : strEndsWith fn ".yaml" = true)
    (htr : doc.truthy = true)
    (hkind : doc.get1 "kind" = some (.str "Deployment"))
    (hspec : doc.get "spec" (.map []) = some spec)
    (hrepl : spec.get "replicas" (.int 1) = some replV)
    (hnum : pyNum replV = some ((r : ℤ) : ℚ))
    (htmpl : spec.get "template" (.map []) = some tmpl)
    (hpod : tmpl.get "spec" (.map []) = some podSpec)
    (hcont : podSpec.get "containers" (.list []) = some (.list cs))
    (hall : ∀ c ∈ cs, ∃ res req, c.get "resources" (.map []) = some res ∧
      res.get "requests" (.map []) = some req ∧
      req.get "cpu" (.str "100m") = some (.str "100m") ∧
      req.get "memory" (.str "128Mi") = some (.str "128Mi")) :
    calculate_current_cost [(fn, ⟨raw, some [doc]⟩)] = pyRound2 (225 * (r : ℚ) * cs.length) := by
  have hdoc : docCost doc = (225 * (r : ℚ) * cs.length, true) := by
    unfold docCost
    simp only [htr, hkind, hspec, hrepl, htmpl, hpod, hcont, pyIter, Bool.not_true,
      Bool.not_false, beq_self_eq_true, if_false, if_true]
    rw [containersCost_defaults replV r cs hnum hall]
    simp [show (("Deployment" : String) == "PersistentVolumeClaim") = false from rfl]
  unfold calculate_current_cost
  rw [show List.foldl (fun acc p => acc + fileCost p.1 p.2) (0 : ℚ) [(fn, ⟨raw, some [doc]⟩)]
      = 0 + fileCost fn ⟨raw, some [doc]⟩ from rfl]
  unfold fileCost
  rw [hfn]
  show pyRound2 (0 + docsCost [doc]) = _
  unfold docsCost
  rw [hdoc]
  show pyRound2 (0 + (225 * (r : ℚ) * cs.length + docsCost [])) = _
  unfold docsCost
  rw [show ((0 : ℚ) + (225 * (r : ℚ) * cs.length + 0)) = 225 * (r : ℚ) * cs.length by ring]

/-- C9 (amended): a Deployment container whose `resources.requests` lookups
fall back to the defaults is billed `100m` CPU and `128Mi` memory per
replica (225 currency units per replica per container); consequently a
document set consisting of one `.yaml` file holding exactly one such
Deployment — with at least one container and a replica count of at least 1 —
has a strictly positive cost.  (The original claim fails when the Deployment
declares `replicas: 0`: the defaults are multiplied by zero.) -/
theorem default_requests_billing (fn raw : String) (doc spec replV tmpl podSpec : Yaml)
    (r : ℤ) (cs : List Yaml)
    (hfn : strEndsWith fn ".yaml" = true)
    (htr : doc.truthy = true)
    (hkind : doc.get1 "kind" = some (.str "Deployment"))
    (hspec : doc.get "spec" (.map []) = some spec)
    (hrepl : spec.get "replicas" (.int 1) = some replV)
    (hnum : pyNum replV = some ((r : ℤ) : ℚ))
    (hr : 1 ≤ r)
    (htmpl : spec.get "template" (.map []) = some tmpl)
    (hpod : tmpl.get "spec" (.map []) = some podSpec)
    (hcont : podSpec.get "containers" (.list []) = some (.list cs))
    (hne : cs ≠ [])
    (hall : ∀ c ∈ cs, ∃ res req, c.get "resources" (.map []) = some res ∧
      res.get "requests" (.map []) = some req ∧
      req.get "cpu" (.str "100m") = some (.str "100m") ∧
      req.get "memory" (.str "128Mi") = some (.str "128Mi")) :
    calculate_current_cost [(fn, ⟨raw, some [doc]⟩)] = pyRound2 (225 * (r : ℚ) * cs.length) ∧
    0 < calculate_current_cost [(fn, ⟨raw, some [doc]⟩)] := by
  have hsum := cost_single_default_deployment fn raw doc spec replV tmpl podSpec r cs
    hfn htr hkind hspec hrepl hnum htmpl hpod hcont hall
  refine ⟨hsum, ?_⟩
  rw [hsum]
  apply pyRound2_pos
  have hlen : 1 ≤ (cs.length : ℚ) := by
    have : 1 ≤ cs.length := List.length_pos.mpr hne
    exact_mod_cast this
  have hrq : 1 ≤ (r : ℚ) := by exact_mod_cast hr
  nlinarith

/-- Concrete example pod spec: one container with no resource requests. -/
def exPod : Yaml := .map [("containers", .list [.map []])]

def exTmpl : Yaml := .map [("spec", exPod)]

def exSpec (r : ℤ) : Yaml := .map [("replicas", .int r), ("template", exTmpl)]

/-- Concrete example Deployment with `replicas: r` and one container with no
resource requests. -/
def exDeployment (r : ℤ) : Yaml :=
  .map [("kind", .str "Deployment"), ("metadata", .map [("name", .str "app")]),
        ("spec", exSpec r)]

/-- C9 witness: a single default-billed Deployment with one container and
`replicas: 2` costs `round(450, 2) = 450 > 0`. -/
theorem default_requests_billing_witness :
    calculate_current_cost [("deployment.yaml", ⟨"raw", some [exDeployment 2]⟩)] =
      pyRound2 (225 * ((2 : ℤ) : ℚ) * ([Yaml.map []] : List Yaml).length) ∧
    0 < calculate_current_cost [("deployment.yaml", ⟨"raw", some [exDeployment 2]⟩)] :=
  default_requests_billing "deployment.yaml" "raw" (exDeployment 2) (exSpec 2) (.int 2)
    exTmpl exPod 2 [Yaml.map []]
    rfl rfl rfl rfl rfl rfl (by norm_num) rfl rfl rfl (by simp)
    (fun c hc => by
      rw [List.mem_singleton] at hc
      subst hc
      exact ⟨.map [], .map [], rfl, rfl, rfl, rfl⟩)

/-- C9 counterexample: a non-empty document set containing a Deployment with
a container and no resource requests, but `replicas: 0`, has cost exactly 0,
not a strictly positive cost. -/
theorem zero_replicas_zero_cost :
    calculate_current_cost [("deployment.yaml", ⟨"raw", some [exDeployment 0]⟩)] = 0 := by
  have h := cost_single_default_deployment "deployment.yaml" "raw" (exDeployment 0) (exSpec 0)
    (.int 0) exTmpl exPod 0 [Yaml.map []]
    rfl rfl rfl rfl rfl rfl rfl rfl rfl
    (fun c hc => by
      rw [List.mem_singleton] at hc
      subst hc
      exact ⟨.map [], .map [], rfl, rfl, rfl, rfl⟩)
  rw [h]
  rw [show (225 * ((0 : ℤ) : ℚ) * (([Yaml.map []] : List Yaml).length : ℚ)) = 0 by norm_num]
  exact pyRound2_zero

/-- C4 witness: the advertised `enable_spot` tag is among the silently
ignored ones. -/
theorem unknown_change_type_ignored_witness :
    apply_optimizations [("a.yaml", ⟨"t", some [exDeployment 2]⟩)]
      [.map [("type", .str "enable_spot"), ("target", .str "app"), ("to", .str "spot")]] =
    some [("a.yaml", ⟨"t", some [exDeployment 2]⟩)] :=
  unknown_change_type_ignored _ _ _ _ (by decide)

/-! ## C8 — untouched entries are returned byte-identical -/

/-- The target name carried by a change. -/
def targetOf (ch : Yaml) : Yaml :=
  match ch.get1 "target" with
  | some t => t
  | none => .null

/-- The condition under which the per-document loop considers a document:
it is truthy and its `metadata.name` equals the change's target. -/
def docMatchesTarget (doc target : Yaml) : Bool :=
  doc.truthy &&
  (match doc.get "metadata" (.map []) with
   | some md =>
     match md.get1 "name" with
     | some nm => pyEq nm target
     | none => false
   | none => false)

theorem applyChangeDoc_nomatch (ctype target newv doc : Yaml)
    (h : docMatchesTarget doc target = false) :
    applyChangeDoc ctype target newv doc = none ∨
    applyChangeDoc ctype target newv doc = some (doc, false) := by
  unfold applyChangeDoc
  split
  · right; rfl
  · rename_i htr
    have htruthy : doc.truthy = true := by
      revert htr
      cases doc.truthy <;> simp
    unfold docMatchesTarget at h
    rw [htruthy] at h
    simp only [Bool.true_and] at h
    split
    · left; rfl
    · rename_i md hmd
      simp only [hmd] at h
      split
      · left; rfl
      · rename_i nm hnm
        simp only [hnm] at h
        rw [if_pos (by rw [h]; rfl)]
        right; rfl

theorem applyChangeDocs_nomatch (ctype target newv : Yaml) (ds : List Yaml)
    (h : ∀ d ∈ ds, docMatchesTarget d target = false) :
    applyChangeDocs ctype target newv ds = none ∨
    applyChangeDocs ctype target newv ds = some (ds, false) := by
  induction ds with
  | nil => right; rfl
  | cons d ds ih =>
    unfold applyChangeDocs
    rcases applyChangeDoc_nomatch ctype target newv d (h d (List.mem_cons_self d ds)) with hd | hd
    · rw [hd]; left; rfl
    · rw [hd]
      rcases ih (fun d hd' => h d (List.mem_cons_of_mem _ hd')) with hds | hds
      · rw [hds]; left; rfl
      · rw [hds]; right; rfl

theorem applyChangeFile_nomatch (ctype target newv : Yaml) (p : String × MFile)
    (h : ∀ d ∈ p.2.docs.getD [], docMatchesTarget d target = false) :
    applyChangeFile ctype target newv p = p := by
  unfold applyChangeFile
  split
  · rfl
  · cases hd : p.2.docs with
    | none => rfl
    | some ds =>
      show (match applyChangeDocs ctype target newv ds with
        | none => p
        | some (ds', m) =>
          if m then (p.1, ⟨yamlDumpAll ds', some ds'⟩) else p) = p
      have hds : ∀ d ∈ ds, docMatchesTarget d target = false := by
        intro d hdm
        exact h d (by rw [hd]; exact hdm)
      rcases applyChangeDocs_nomatch ctype target newv ds hds with hres | hres
      · rw [hres]
      · rw [hres]
        rfl

/-- One entry's evolution across the whole change list. -/
def applyChangesFile (chs : List Yaml) (p : String × MFile) : String × MFile :=
  chs.foldl (fun q ch =>
    match changeFields ch with
    | none => q
    | some (t, tg, nv) => applyChangeFile t tg nv q) p

theorem changeFields_target (ch t tg nv : Yaml) (h : changeFields ch = some (t, tg, nv)) :
    ch.get1 "target" = some tg := by
  unfold changeFields at h
  simp only [Option.bind_eq_bind, Option.bind_eq_some, Option.pure_def,
    Option.some.injEq] at h
  obtain ⟨a, ha, b, hb, c, hc, heq⟩ := h
  obtain ⟨rfl, rfl, rfl⟩ := Prod.mk.injEq .. ▸ heq
  exact hb

/-- `_apply_optimizations` is, entrywise, the fold of the changes over each
file. -/
theorem apply_optimizations_eq_map (ms : Manifests) (chs : List Yaml) (out : Manifests)
    (h : apply_optimizations ms chs = some out) :
    out = ms.map (applyChangesFile chs) := by
  induction chs generalizing ms with
  | nil =>
    simp only [apply_optimizations, List.foldlM_nil, Option.pure_def, Option.some.injEq] at h
    subst h
    rw [show applyChangesFile ([] : List Yaml) = id from rfl, List.map_id]
  | cons ch chs ih =>
    unfold apply_optimizations at h
    rw [List.foldlM_cons] at h
    cases hch : applyOneChange ms ch with
    | none => rw [hch] at h; simp at h
    | some ms' =>
      rw [hch] at h
      have hfold : List.foldlM applyOneChange ms' chs = some out := h
      have hout := ih ms' hfold
      unfold applyOneChange at hch
      cases hcf : changeFields ch with
      | none => rw [hcf] at hch; simp at hch
      | some ttgnv =>
        obtain ⟨t, tg, nv⟩ := ttgnv
        rw [hcf] at hch
        simp only [Option.some.injEq] at hch
        subst hch
        rw [hout, List.map_map]
        congr 1
        funext p
        show applyChangesFile chs (applyChangeFile t tg nv p) = applyChangesFile (ch :: chs) p
        unfold applyChangesFile
        rw [List.foldl_cons, hcf]

theorem applyChangesFile_nomatch (chs : List Yaml) (p : String × MFile)
    (h : ∀ d ∈ p.2.docs.getD [], ∀ ch ∈ chs, docMatchesTarget d (targetOf ch) = false) :
    applyChangesFile chs p = p := by
  induction chs with
  | nil => rfl
  | cons ch chs ih =>
    unfold applyChangesFile
    rw [List.foldl_cons]
    cases hcf : changeFields ch with
    | none =>
      simp only [hcf]
      exact ih (fun d hd ch' hch' => h d hd ch' (List.mem_cons_of_mem _ hch'))
    | some ttgnv =>
      obtain ⟨t, tg, nv⟩ := ttgnv
      have htg : targetOf ch = tg := by
        unfold targetOf
        rw [changeFields_target ch t tg nv hcf]
      have hfile : applyChangeFile t tg nv p = p := by
        apply applyChangeFile_nomatch
        intro d hd
        rw [← htg]
        exact h d hd ch (List.mem_cons_self ch chs)
      simp only [hcf]
      rw [hfile]
      exact ih (fun d hd ch' hch' => h d hd ch' (List.mem_cons_of_mem _ hch'))

/-- C8: `_apply_optimizations` re-serializes only entries that were actually
modified: whenever the call succeeds, every entry none of whose documents
has a metadata name equal to any change's target is returned byte-identical
(text and parse untouched); in particular if no document in the set matches
any change target, the whole map is returned unchanged. -/
theorem untouched_documents_byte_identical (ms : Manifests) (chs : List Yaml)
    (out : Manifests) (h : apply_optimizations ms chs = some out) :
    List.Forall₂ (fun p q =>
      ((p.2.docs.getD []).all
        (fun d => chs.all (fun ch => !docMatchesTarget d (targetOf ch))) = true → q = p))
      ms out ∧
    ((∀ p ∈ ms, (p.2.docs.getD []).all
        (fun d => chs.all (fun ch => !docMatchesTarget d (targetOf ch))) = true) →
      out = ms) := by
  have hmap := apply_optimizations_eq_map ms chs out h
  subst hmap
  have hkey : ∀ p : String × MFile,
      (p.2.docs.getD []).all
        (fun d => chs.all (fun ch => !docMatchesTarget d (targetOf ch))) = true →
      applyChangesFile chs p = p := by
    intro p hp
    apply applyChangesFile_nomatch
    intro d hd ch hch
    have h1 := List.all_eq_true.mp hp _ hd
    have h2 := List.all_eq_true.mp h1 _ hch
    simpa using h2
  have hfa : ∀ l : Manifests, List.Forall₂ (fun p q =>
      ((p.2.docs.getD []).all
        (fun d => chs.all (fun ch => !docMatchesTarget d (targetOf ch))) = true → q = p))
      l (l.map (applyChangesFile chs)) := by
    intro l
    induction l with
    | nil => exact List.Forall₂.nil
    | cons p l ih => exact List.Forall₂.cons (fun hp => hkey p hp) ih
  have hid : ∀ l : Manifests, (∀ p ∈ l, (p.2.docs.getD []).all
      (fun d => chs.all (fun ch => !docMatchesTarget d (targetOf ch))) = true) →
      l.map (applyChangesFile chs) = l := by
    intro l hall
    induction l with
    | nil => rfl
    | cons p l ih =>
      rw [List.map_cons, hkey p (hall p (List.mem_cons_self p l)),
        ih (fun q hq => hall q (List.mem_cons_of_mem _ hq))]
  exact ⟨hfa ms, hid ms⟩

/-- C8 witness: a replica change targeting a name absent from the set leaves
the single entry byte-identical. -/
theorem untouched_documents_byte_identical_witness :
    List.Forall₂ (fun p q =>
      ((p.2.docs.getD []).all
        (fun d => [Yaml.map [("type", Yaml.str "reduce_replicas"),
            ("target", Yaml.str "other"), ("to", Yaml.int 1)]].all
          (fun ch => !docMatchesTarget d (targetOf ch))) = true → q = p))
      [("a.yaml", (⟨"t", some [exDeployment 2]⟩ : MFile))]
      [("a.yaml", (⟨"t", some [exDeployment 2]⟩ : MFile))] ∧
    ((∀ p ∈ [("a.yaml", (⟨"t", some [exDeployment 2]⟩ : MFile))],
        ((p.2.docs.getD []).all
          (fun d => [Yaml.map [("type", Yaml.str "reduce_replicas"),
              ("target", Yaml.str "other"), ("to", Yaml.int 1)]].all
            (fun ch => !docMatchesTarget d (targetOf ch))) = true)) →
      [("a.yaml", (⟨"t", some [exDeployment 2]⟩ : MFile))] =
        [("a.yaml", (⟨"t", some [exDeployment 2]⟩ : MFile))]) :=
  untouched_documents_byte_identical
    [("a.yaml", ⟨"t", some [exDeployment 2]⟩)]
    [Yaml.map [("type", Yaml.str "reduce_replicas"),
      ("target", Yaml.str "other"), ("to", Yaml.int 1)]]
    [("a.yaml", ⟨"t", some [exDeployment 2]⟩)]
    (by rfl)

/-! ## C10 — entries not named `*.yaml` are ignored by every analyzer -/

theorem strEndsWith_false_of_not (s : String) (h : ¬ strEndsWith s ".yaml" = true) :
    strEndsWith s ".yaml" = false := by
  revert h
  cases strEndsWith s ".yaml" <;> simp

theorem fileCost_nonyaml (fn : String) (f : MFile) (h : strEndsWith fn ".yaml" = false) :
    fileCost fn f = 0 := by
  unfold fileCost
  rw [h]
  rfl

theorem cost_foldl_filter (ms : Manifests) (acc : ℚ) :
    ms.foldl (fun acc p => acc + fileCost p.1 p.2) acc =
    (ms.filter (fun p => strEndsWith p.1 ".yaml")).foldl
      (fun acc p => acc + fileCost p.1 p.2) acc := by
  induction ms generalizing acc with
  | nil => rfl
  | cons p ms ih =>
    by_cases hp : strEndsWith p.1 ".yaml" = true
    · rw [List.foldl_cons, List.filter_cons_of_pos (by simpa using hp), List.foldl_cons]
      exact ih _
    · have hp' := strEndsWith_false_of_not p.1 hp
      rw [List.foldl_cons, List.filter_cons_of_neg (by simpa using hp)]
      rw [fileCost_nonyaml p.1 p.2 hp', add_zero]
      exact ih acc

theorem applyChangeFile_nonyaml (ctype target newv : Yaml) (p : String × MFile)
    (hp : strEndsWith p.1 ".yaml" = false) :
    applyChangeFile ctype target newv p = p := by
  unfold applyChangeFile
  rw [hp]
  rfl

theorem applyChangesFile_nonyaml (chs : List Yaml) (p : String × MFile)
    (hp : strEndsWith p.1 ".yaml" = false) :
    applyChangesFile chs p = p := by
  induction chs with
  | nil => rfl
  | cons ch chs ih =>
    unfold applyChangesFile
    rw [List.foldl_cons]
    cases hcf : changeFields ch with
    | none =>
      simp only [hcf]
      exact ih
    | some ttgnv =>
      obtain ⟨t, tg, nv⟩ := ttgnv
      simp only [hcf]
      rw [applyChangeFile_nonyaml t tg nv p hp]
      exact ih

theorem checkFile_nonyaml (st : Checks) (p : String × MFile)
    (hp : strEndsWith p.1 ".yaml" = false) :
    checkFile st p = st := by
  unfold checkFile
  rw [hp]
  rfl

theorem checks_foldl_filter (ms : Manifests) (st : Checks) :
    ms.foldl checkFile st =
    (ms.filter (fun p => strEndsWith p.1 ".yaml")).foldl checkFile st := by
  induction ms generalizing st with
  | nil => rfl
  | cons p ms ih =>
    by_cases hp : strEndsWith p.1 ".yaml" = true
    · rw [List.foldl_cons, List.filter_cons_of_pos (by simpa using hp), List.foldl_cons]
      exact ih _
    · have hp' := strEndsWith_false_of_not p.1 hp
      rw [List.foldl_cons, List.filter_cons_of_neg (by simpa using hp)]
      rw [checkFile_nonyaml st p hp']
      exact ih st

/-- C10: entries of the manifest map whose key does not end in `.yaml` are
ignored entirely: they contribute nothing to `currentCost`,
`applyOptimizations` returns them byte-identical whatever the change list,
and they have no effect on the security basic-checks record. -/
theorem non_yaml_entries_inert (ms : Manifests) :
    calculate_current_cost ms =
      calculate_current_cost (ms.filter (fun p => strEndsWith p.1 ".yaml")) ∧
    (∀ chs out, apply_optimizations ms chs = some out →
      List.Forall₂ (fun p q => strEndsWith p.1 ".yaml" = false → q = p) ms out) ∧
    run_basic_checks ms =
      run_basic_checks (ms.filter (fun p => strEndsWith p.1 ".yaml")) := by
  refine ⟨?_, ?_, ?_⟩
  · unfold calculate_current_cost
    rw [cost_foldl_filter ms 0]
  · intro chs out h
    have hmap := apply_optimizations_eq_map ms chs out h
    subst hmap
    have hfa : ∀ l : Manifests,
        List.Forall₂ (fun p q => strEndsWith p.1 ".yaml" = false → q = p)
          l (l.map (applyChangesFile chs)) := by
      intro l
      induction l with
      | nil => exact List.Forall₂.nil
      | cons p l ih =>
        exact List.Forall₂.cons (fun hp => applyChangesFile_nonyaml chs p hp) ih
    exact hfa ms
  · unfold run_basic_checks
    rw [checks_foldl_filter ms initChecks]

/-- Concrete mixed manifest map: one `.txt` entry, one `.yaml` entry. -/
def exMixedMs : Manifests :=
  [("notes.txt", ⟨"not yaml", some [exDeployment 1]⟩),
   ("deployment.yaml", ⟨"raw", some [exDeployment 1]⟩)]

/-- C10 witness: the three inertness facts at a concrete mixed map, with the
change list instantiated empty. -/
theorem non_yaml_entries_inert_witness :
    calculate_current_cost exMixedMs =
      calculate_current_cost (exMixedMs.filter (fun p => strEndsWith p.1 ".yaml")) ∧
    List.Forall₂ (fun p q => strEndsWith p.1 ".yaml" = false → q = p)
      exMixedMs exMixedMs ∧
    run_basic_checks exMixedMs =
      run_basic_checks (exMixedMs.filter (fun p => strEndsWith p.1 ".yaml")) := by
  obtain ⟨h1, h2, h3⟩ := non_yaml_entries_inert exMixedMs
  exact ⟨h1, h2 [] exMixedMs rfl, h3⟩

/-! ## C3 — zero-trust-ready compliance flag

Infrastructure: how one scanner statement treats a Boolean field of the
checks record.  `StepSets proj f b` says the statement sets `proj` exactly
when it completes without raising and `b` holds (with `b = false` this is
preservation); `StepOkConst f` says whether the statement raises does not
depend on the record state. -/

def StepSets (proj : Checks → Bool) (f : Step) (b : Bool) : Prop :=
  ∀ st, proj (f st).1 = (proj st || ((f st).2 && b))

def StepOkConst (f : Step) : Prop :=
  ∀ st st', (f st).2 = (f st').2

theorem sets_skip (proj : Checks → Bool) : StepSets proj Step.skip false := by
  intro st; simp [Step.skip]

theorem sets_fail (proj : Checks → Bool) (b : Bool) : StepSets proj Step.fail b := by
  intro st; simp [Step.fail]

theorem sets_update_pres (proj : Checks → Bool) (u : Checks → Checks)
    (hu : ∀ st, proj (u st) = proj st) : StepSets proj (Step.update u) false := by
  intro st; simp [Step.update, hu]

theorem sets_update_sets (proj : Checks → Bool) (u : Checks → Checks)
    (hu : ∀ st, proj (u st) = true) : StepSets proj (Step.update u) true := by
  intro st; simp [Step.update, hu]

theorem sets_seq (proj : Checks → Bool) (f g : Step) (b : Bool)
    (hf : StepSets proj f false) (hg : StepSets proj g b) :
    StepSets proj (Step.seq f g) b := by
  intro st
  unfold Step.seq
  dsimp only
  cases hfs : (f st).2 with
  | false =>
    have h1 := hf st
    rw [hfs] at h1
    simp only [Bool.and_false, Bool.or_false] at h1
    simp [hfs, h1]
  | true =>
    have h1 := hf st
    rw [hfs] at h1
    simp only [Bool.true_and, Bool.and_false, Bool.or_false] at h1
    simp [hfs, h1, hg (f st).1]

theorem sets_bindO (proj : Checks → Bool) {α : Type} (o : Option α) (k : α → Step) (b : Bool)
    (hk : ∀ a, StepSets proj (k a) b) : StepSets proj (Step.bindO o k) b := by
  intro st
  cases o with
  | none => simp [Step.bindO]
  | some a => exact hk a st

theorem sets_bindO_none (proj : Checks → Bool) {α : Type} (k : α → Step) (b : Bool) :
    StepSets proj (Step.bindO none k) b := by
  intro st; simp [Step.bindO]

theorem bindO_some {α : Type} (a : α) (k : α → Step) : Step.bindO (some a) k = k a := rfl

theorem sets_ite (proj : Checks → Bool) (c : Prop) [Decidable c] (f g : Step) (b : Bool)
    (hf : StepSets proj f b) (hg : StepSets proj g b) :
    StepSets proj (if c then f else g) b := by
  by_cases hc : c
  · rw [if_pos hc]; exact hf
  · rw [if_neg hc]; exact hg

theorem sets_forEach (proj : Checks → Bool) {α : Type} (body : α → Step) (xs : List α)
    (hb : ∀ x, StepSets proj (body x) false) :
    StepSets proj (Step.forEach body xs) false := by
  induction xs with
  | nil => exact sets_skip proj
  | cons x xs ih => exact sets_seq proj _ _ false (hb x) ih

theorem okConst_skip : StepOkConst Step.skip := fun _ _ => rfl

theorem okConst_fail : StepOkConst Step.fail := fun _ _ => rfl

theorem okConst_update (u : Checks → Checks) : StepOkConst (Step.update u) := fun _ _ => rfl

theorem okConst_seq (f g : Step) (hf : StepOkConst f) (hg : StepOkConst g) :
    StepOkConst (Step.seq f g) := by
  intro st st'
  unfold Step.seq
  dsimp only
  rw [hf st st']
  cases hfs : (f st').2 with
  | false => simp [hfs]
  | true => simp [hfs, hg (f st).1 (f st').1]

theorem okConst_bindO {α : Type} (o : Option α) (k : α → Step)
    (hk : ∀ a, StepOkConst (k a)) : StepOkConst (Step.bindO o k) := by
  intro st st'
  cases o with
  | none => rfl
  | some a => exact hk a st st'

theorem okConst_ite (c : Prop) [Decidable c] (f g : Step)
    (hf : StepOkConst f) (hg : StepOkConst g) : StepOkConst (if c then f else g) := by
  by_cases hc : c
  · rw [if_pos hc]; exact hf
  · rw [if_neg hc]; exact hg

theorem okConst_forEach {α : Type} (body : α → Step) (xs : List α)
    (hb : ∀ x, StepOkConst (body x)) : StepOkConst (Step.forEach body xs) := by
  induction xs with
  | nil => exact okConst_skip
  | cons x xs ih => exact okConst_seq _ _ (hb x) ih

def npFlag (c : Checks) : Bool := c.network_policies_present

def saFlag (c : Checks) : Bool := c.service_account_set

theorem sets_ite_true (proj : Checks → Bool) (c : Prop) [Decidable c] (hc : c)
    (f g : Step) (b : Bool) (hf : StepSets proj f b) :
    StepSets proj (if c then f else g) b := by
  rw [if_pos hc]; exact hf

theorem sets_ite_false (proj : Checks → Bool) (c : Prop) [Decidable c] (hc : ¬ c)
    (f g : Step) (b : Bool) (hg : StepSets proj g b) :
    StepSets proj (if c then f else g) b := by
  rw [if_neg hc]; exact hg

/-- All updates performed by `envStep` leave a field other than
`secrets_in_env` unchanged. -/
theorem envStep_sets (proj : Checks → Bool)
    (hsec : ∀ st v, proj { st with secrets_in_env := v } = proj st)
    (nm cn env : Yaml) : StepSets proj (envStep nm cn env) false := by
  unfold envStep
  apply sets_bindO
  intro nmv
  cases nmv with
  | str s =>
    apply sets_ite
    · apply sets_bindO
      intro hasVal
      apply sets_ite
      · apply sets_bindO
        intro nv
        exact sets_update_pres proj _ (fun st => hsec st _)
      · exact sets_skip proj
    · exact sets_skip proj
  | null => exact sets_fail proj false
  | bool b => exact sets_fail proj false
  | int n => exact sets_fail proj false
  | list xs => exact sets_fail proj false
  | map kvs => exact sets_fail proj false

/-- All updates performed by `containerStep` leave a field other than the
container-level ones unchanged. -/
theorem containerStep_sets (proj : Checks → Bool)
    (hpriv : ∀ st v, proj { st with privileged_containers := v } = proj st)
    (hcaps : ∀ st v, proj { st with capabilities_added := v } = proj st)
    (hlim : ∀ st b, proj { st with resource_limits_set := b } = proj st)
    (hready : ∀ st b, proj { st with readiness_probes_set := b } = proj st)
    (hlive : ∀ st b, proj { st with liveness_probes_set := b } = proj st)
    (htrust : ∀ st v, proj { st with trusted_registry := v } = proj st)
    (hpull : ∀ st v, proj { st with image_pull_policy := v } = proj st)
    (hsec : ∀ st v, proj { st with secrets_in_env := v } = proj st)
    (nm c : Yaml) : StepSets proj (containerStep nm c) false := by
  unfold containerStep
  apply sets_bindO
  intro cn
  apply sets_seq
  · apply sets_bindO
    intro priv
    apply sets_ite
    · exact sets_update_pres proj _ (fun st => hpriv st _)
    · exact sets_skip proj
  apply sets_seq
  · apply sets_bindO
    intro caps
    apply sets_ite
    · apply sets_bindO
      intro capList
      exact sets_update_pres proj _ (fun st => hcaps st _)
    · exact sets_skip proj
  apply sets_seq
  · apply sets_bindO
    intro lim
    apply sets_ite
    · exact sets_update_pres proj _ (fun st => hlim st _)
    · exact sets_skip proj
  apply sets_seq
  · apply sets_bindO
    intro p
    apply sets_ite
    · exact sets_update_pres proj _ (fun st => hready st _)
    · exact sets_skip proj
  apply sets_seq
  · apply sets_bindO
    intro p
    apply sets_ite
    · exact sets_update_pres proj _ (fun st => hlive st _)
    · exact sets_skip proj
  apply sets_seq
  · apply sets_bindO
    intro image
    apply sets_ite
    · apply sets_bindO
      intro t1
      apply sets_ite
      · exact sets_update_pres proj _ (fun st => htrust st _)
      · apply sets_bindO
        intro t2
        apply sets_ite
        · exact sets_update_pres proj _ (fun st => htrust st _)
        · exact sets_update_pres proj _ (fun st => hpull st _)
    · exact sets_skip proj
  apply sets_bindO
  intro envV
  apply sets_bindO
  intro envs
  exact sets_forEach proj _ envs (fun env => envStep_sets proj hsec nm cn env)

theorem volumeStep_sets (proj : Checks → Bool)
    (hhp : ∀ st v, proj { st with host_path_volumes := v } = proj st)
    (nm vol : Yaml) : StepSets proj (volumeStep nm vol) false := by
  unfold volumeStep
  apply sets_bindO
  intro hp
  apply sets_ite
  · apply sets_bindO
    intro pathv
    exact sets_update_pres proj _ (fun st => hhp st _)
  · exact sets_skip proj

theorem okConst_envStep (nm cn env : Yaml) : StepOkConst (envStep nm cn env) := by
  unfold envStep
  apply okConst_bindO
  intro nmv
  cases nmv with
  | str s =>
    apply okConst_ite
    · apply okConst_bindO
      intro hasVal
      apply okConst_ite
      · exact okConst_bindO _ _ (fun nv => okConst_update _)
      · exact okConst_skip
    · exact okConst_skip
  | null => exact okConst_fail
  | bool b => exact okConst_fail
  | int n => exact okConst_fail
  | list xs => exact okConst_fail
  | map kvs => exact okConst_fail

theorem okConst_containerStep (nm c : Yaml) : StepOkConst (containerStep nm c) := by
  unfold containerStep
  apply okConst_bindO
  intro cn
  apply okConst_seq
  · exact okConst_bindO _ _ (fun priv => okConst_ite _ _ _ (okConst_update _) okConst_skip)
  apply okConst_seq
  · exact okConst_bindO _ _ (fun caps => okConst_ite _ _ _
      (okConst_bindO _ _ (fun capList => okConst_update _)) okConst_skip)
  apply okConst_seq
  · exact okConst_bindO _ _ (fun lim => okConst_ite _ _ _ (okConst_update _) okConst_skip)
  apply okConst_seq
  · exact okConst_bindO _ _ (fun p => okConst_ite _ _ _ (okConst_update _) okConst_skip)
  apply okConst_seq
  · exact okConst_bindO _ _ (fun p => okConst_ite _ _ _ (okConst_update _) okConst_skip)
  apply okConst_seq
  · apply okConst_bindO
    intro image
    apply okConst_ite
    · apply okConst_bindO
      intro t1
      apply okConst_ite
      · exact okConst_update _
      · exact okConst_bindO _ _ (fun t2 => okConst_ite _ _ _ (okConst_update _) (okConst_update _))
    · exact okConst_skip
  apply okConst_bindO
  intro envV
  apply okConst_bindO
  intro envs
  exact okConst_forEach _ envs (fun env => okConst_envStep nm cn env)

theorem okConst_volumeStep (nm vol : Yaml) : StepOkConst (volumeStep nm vol) := by
  unfold volumeStep
  apply okConst_bindO
  intro hp
  apply okConst_ite
  · exact okConst_bindO _ _ (fun pathv => okConst_update _)
  · exact okConst_skip

/-- A document that the scanner records as a network policy: truthy with
`kind == "NetworkPolicy"`. -/
def isNPDoc (d : Yaml) : Bool :=
  d.truthy && (match d.get1 "kind" with
    | some k => kindIs k "NetworkPolicy"
    | none => false)

/-- A Deployment document that sets a truthy
`spec.template.spec.serviceAccountName`. -/
def docSetsSA (d : Yaml) : Bool :=
  d.truthy && (match d.get1 "kind" with
    | some k => kindIs k "Deployment"
    | none => false) &&
  (match (podSpecOf d).bind (fun ps => ps.get1 "serviceAccountName") with
   | some sa => sa.truthy
   | none => false)

theorem kindIs_exclusive (k : Yaml) (h : kindIs k "Deployment" = true) :
    kindIs k "NetworkPolicy" = false := by
  cases k with
  | str s =>
    unfold kindIs at h ⊢
    have hs : s = "Deployment" := by simpa using h
    subst hs
    decide
  | null => simp [kindIs] at h
  | bool b => simp [kindIs] at h
  | int n => simp [kindIs] at h
  | list xs => simp [kindIs] at h
  | map kvs => simp [kindIs] at h

/-- The scanner sets `network_policies_present` exactly on cleanly processed
network-policy documents. -/
theorem checkDoc_sets_np (d : Yaml) : StepSets npFlag (checkDoc d) (isNPDoc d) := by
  unfold checkDoc
  cases htr : d.truthy with
  | false =>
    rw [show isNPDoc d = false from by unfold isNPDoc; rw [htr]; rfl]
    apply sets_ite_true npFlag _ rfl
    exact sets_skip npFlag
  | true =>
    apply sets_ite_false npFlag _ (by simp)
    cases hk : d.get1 "kind" with
    | none => exact sets_bindO_none npFlag _ _
    | some kind =>
      rw [bindO_some]
      cases hmd : (d.get "metadata" (.map [])).bind (fun md => md.get "name" (.str "unnamed")) with
      | none => exact sets_bindO_none npFlag _ _
      | some nm =>
        rw [bindO_some]
        cases hdep : kindIs kind "Deployment" with
        | true =>
          rw [show isNPDoc d = false from by
            unfold isNPDoc; rw [htr, hk]; simp [kindIs_exclusive kind hdep]]
          apply sets_ite_true npFlag _ rfl
          apply sets_bindO
          intro spec
          apply sets_seq
          · apply sets_bindO
            intro ps
            apply sets_ite
            · apply sets_seq
              · exact sets_update_pres npFlag _ (fun st => rfl)
              · apply sets_bindO
                intro r
                apply sets_ite
                · exact sets_update_pres npFlag _ (fun st => rfl)
                · exact sets_skip npFlag
            · exact sets_skip npFlag
          apply sets_seq
          · apply sets_bindO
            intro cv
            apply sets_bindO
            intro cs
            exact sets_forEach npFlag _ cs (fun c => containerStep_sets npFlag
              (fun st v => rfl) (fun st v => rfl) (fun st b => rfl) (fun st b => rfl)
              (fun st b => rfl) (fun st v => rfl) (fun st v => rfl) (fun st v => rfl) nm c)
          apply sets_seq
          · apply sets_bindO
            intro hn
            apply sets_ite
            · exact sets_update_pres npFlag _ (fun st => rfl)
            · exact sets_skip npFlag
          apply sets_seq
          · apply sets_bindO
            intro vv
            apply sets_bindO
            intro vols
            exact sets_forEach npFlag _ vols (fun v => volumeStep_sets npFlag
              (fun st w => rfl) nm v)
          · apply sets_bindO
            intro sa
            apply sets_ite
            · exact sets_update_pres npFlag _ (fun st => rfl)
            · exact sets_skip npFlag
        | false =>
          apply sets_ite_false npFlag _ (by simp)
          cases hnp : kindIs kind "NetworkPolicy" with
          | true =>
            rw [show isNPDoc d = true from by unfold isNPDoc; rw [htr, hk]; simp [hnp]]
            apply sets_ite_true npFlag _ rfl
            exact sets_update_sets npFlag _ (fun st => rfl)
          | false =>
            rw [show isNPDoc d = false from by unfold isNPDoc; rw [htr, hk]; simp [hnp]]
            apply sets_ite_false npFlag _ (by simp)
            exact sets_skip npFlag

/-- The scanner sets `service_account_set` exactly on cleanly processed
Deployments with a truthy `serviceAccountName`. -/
theorem checkDoc_sets_sa (d : Yaml) : StepSets saFlag (checkDoc d) (docSetsSA d) := by
  unfold checkDoc
  cases htr : d.truthy with
  | false =>
    rw [show docSetsSA d = false from by unfold docSetsSA; rw [htr]; rfl]
    apply sets_ite_true saFlag _ rfl
    exact sets_skip saFlag
  | true =>
    apply sets_ite_false saFlag _ (by simp)
    cases hk : d.get1 "kind" with
    | none => exact sets_bindO_none saFlag _ _
    | some kind =>
      rw [bindO_some]
      cases hmd : (d.get "metadata" (.map [])).bind (fun md => md.get "name" (.str "unnamed")) with
      | none => exact sets_bindO_none saFlag _ _
      | some nm =>
        rw [bindO_some]
        cases hdep : kindIs kind "Deployment" with
        | true =>
          apply sets_ite_true saFlag _ rfl
          cases hps : podSpecOf d with
          | none => exact sets_bindO_none saFlag _ _
          | some spec =>
            rw [bindO_some]
            apply sets_seq
            · apply sets_bindO
              intro ps
              apply sets_ite
              · apply sets_seq
                · exact sets_update_pres saFlag _ (fun st => rfl)
                · apply sets_bindO
                  intro r
                  apply sets_ite
                  · exact sets_update_pres saFlag _ (fun st => rfl)
                  · exact sets_skip saFlag
              · exact sets_skip saFlag
            apply sets_seq
            · apply sets_bindO
              intro cv
              apply sets_bindO
              intro cs
              exact sets_forEach saFlag _ cs (fun c => containerStep_sets saFlag
                (fun st v => rfl) (fun st v => rfl) (fun st b => rfl) (fun st b => rfl)
                (fun st b => rfl) (fun st v => rfl) (fun st v => rfl) (fun st v => rfl) nm c)
            apply sets_seq
            · apply sets_bindO
              intro hn
              apply sets_ite
              · exact sets_update_pres saFlag _ (fun st => rfl)
              · exact sets_skip saFlag
            apply sets_seq
            · apply sets_bindO
              intro vv
              apply sets_bindO
              intro vols
              exact sets_forEach saFlag _ vols (fun v => volumeStep_sets saFlag
                (fun st w => rfl) nm v)
            · cases hsa : spec.get1 "serviceAccountName" with
              | none =>
                rw [show docSetsSA d = false from by
                  unfold docSetsSA; rw [htr, hk]; simp [hdep, hps, hsa]]
                exact sets_bindO_none saFlag _ _
              | some sa =>
                rw [bindO_some]
                rw [show docSetsSA d = sa.truthy from by
                  unfold docSetsSA; rw [htr, hk]; simp [hdep, hps, hsa]]
                cases hsat : sa.truthy with
                | true =>
                  apply sets_ite_true saFlag _ rfl
                  exact sets_update_sets saFlag _ (fun st => rfl)
                | false =>
                  apply sets_ite_false saFlag _ (by simp)
                  exact sets_skip saFlag
        | false =>
          rw [show docSetsSA d = false from by unfold docSetsSA; rw [htr, hk]; simp [hdep]]
          apply sets_ite_false saFlag _ (by simp)
          apply sets_ite
          · exact sets_update_pres saFlag _ (fun st => rfl)
          · exact sets_skip saFlag

theorem okConst_checkDoc (d : Yaml) : StepOkConst (checkDoc d) := by
  unfold checkDoc
  apply okConst_ite
  · exact okConst_skip
  · apply okConst_bindO
    intro kind
    apply okConst_bindO
    intro nm
    apply okConst_ite
    · apply okConst_bindO
      intro spec
      apply okConst_seq
      · apply okConst_bindO
        intro ps
        apply okConst_ite
        · exact okConst_seq _ _ (okConst_update _)
            (okConst_bindO _ _ (fun r => okConst_ite _ _ _ (okConst_update _) okConst_skip))
        · exact okConst_skip
      apply okConst_seq
      · exact okConst_bindO _ _ (fun cv => okConst_bindO _ _ (fun cs =>
          okConst_forEach _ cs (fun c => okConst_containerStep nm c)))
      apply okConst_seq
      · exact okConst_bindO _ _ (fun hn => okConst_ite _ _ _ (okConst_update _) okConst_skip)
      apply okConst_seq
      · exact okConst_bindO _ _ (fun vv => okConst_bindO _ _ (fun vols =>
          okConst_forEach _ vols (fun v => okConst_volumeStep nm v)))
      · exact okConst_bindO _ _ (fun sa => okConst_ite _ _ _ (okConst_update _) okConst_skip)
    · apply okConst_ite
      · exact okConst_update _
      · exact okConst_skip

/-- Whether one document is processed by the scanner without raising (the
ok-flag does not depend on the record state, by `okConst_checkDoc`). -/
def docOk (d : Yaml) : Bool := (checkDoc d initChecks).2

/-- Every document of every `.yaml` entry that parses is processed
without raising. -/
def cleanSet (ms : Manifests) : Bool :=
  ms.all fun p =>
    !(strEndsWith p.1 ".yaml") ||
    (match p.2.docs with
     | none => true
     | some ds => ds.all docOk)

def fileHasNP (p : String × MFile) : Bool :=
  strEndsWith p.1 ".yaml" &&
  (match p.2.docs with
   | some ds => ds.any isNPDoc
   | none => false)

def fileHasSA (p : String × MFile) : Bool :=
  strEndsWith p.1 ".yaml" &&
  (match p.2.docs with
   | some ds => ds.any docSetsSA
   | none => false)

theorem forEach_checkDoc_np (ds : List Yaml) (hok : ∀ d ∈ ds, docOk d = true)
    (st : Checks) :
    npFlag (Step.forEach checkDoc ds st).1 = (npFlag st || ds.any isNPDoc) := by
  induction ds generalizing st with
  | nil => simp [Step.forEach, Step.skip]
  | cons d ds ih =>
    have hokd : (checkDoc d st).2 = true := by
      rw [okConst_checkDoc d st initChecks]
      exact hok d (List.mem_cons_self d ds)
    show npFlag ((Step.seq (checkDoc d) (Step.forEach checkDoc ds)) st).1 = _
    unfold Step.seq
    dsimp only
    rw [if_pos hokd]
    rw [ih (fun e he => hok e (List.mem_cons_of_mem _ he)) ((checkDoc d st).1)]
    have hnp := checkDoc_sets_np d st
    rw [hokd] at hnp
    simp only [Bool.true_and] at hnp
    rw [hnp, List.any_cons, Bool.or_assoc]

theorem forEach_checkDoc_sa (ds : List Yaml) (hok : ∀ d ∈ ds, docOk d = true)
    (st : Checks) :
    saFlag (Step.forEach checkDoc ds st).1 = (saFlag st || ds.any docSetsSA) := by
  induction ds generalizing st with
  | nil => simp [Step.forEach, Step.skip]
  | cons d ds ih =>
    have hokd : (checkDoc d st).2 = true := by
      rw [okConst_checkDoc d st initChecks]
      exact hok d (List.mem_cons_self d ds)
    show saFlag ((Step.seq (checkDoc d) (Step.forEach checkDoc ds)) st).1 = _
    unfold Step.seq
    dsimp only
    rw [if_pos hokd]
    rw [ih (fun e he => hok e (List.mem_cons_of_mem _ he)) ((checkDoc d st).1)]
    have hsa := checkDoc_sets_sa d st
    rw [hokd] at hsa
    simp only [Bool.true_and] at hsa
    rw [hsa, List.any_cons, Bool.or_assoc]

theorem foldl_checks_np (ms : Manifests) (hclean : cleanSet ms = true) (st : Checks) :
    npFlag (ms.foldl checkFile st) = (npFlag st || ms.any fileHasNP) := by
  induction ms generalizing st with
  | nil => simp
  | cons p ms ih =>
    unfold cleanSet at hclean
    rw [List.all_cons, Bool.and_eq_true] at hclean
    obtain ⟨hp, hrest⟩ := hclean
    rw [List.foldl_cons, List.any_cons]
    by_cases hy : strEndsWith p.1 ".yaml" = true
    · cases hd : p.2.docs with
      | none =>
        have hcf : checkFile st p = st := by
          unfold checkFile
          rw [hy, hd]
          rfl
        have hnp : fileHasNP p = false := by
          unfold fileHasNP
          rw [hd]
          simp
        rw [hcf, hnp, ih hrest st]
        simp
      | some ds =>
        have hok : ∀ d ∈ ds, docOk d = true := by
          rw [hy, hd] at hp
          simp only [Bool.not_true, Bool.false_or] at hp
          exact List.all_eq_true.mp hp
        have hcf : checkFile st p = (Step.forEach checkDoc ds st).1 := by
          unfold checkFile
          rw [hy, hd]
          rfl
        have hnp : fileHasNP p = ds.any isNPDoc := by
          unfold fileHasNP
          rw [hy, hd]
          simp
        rw [hcf, hnp, ih hrest, forEach_checkDoc_np ds hok st, Bool.or_assoc]
    · have hy' : strEndsWith p.1 ".yaml" = false := by
        revert hy
        cases strEndsWith p.1 ".yaml" <;> simp
      have hcf : checkFile st p = st := by
        unfold checkFile
        rw [hy']
        rfl
      have hnp : fileHasNP p = false := by
        unfold fileHasNP
        rw [hy']
        rfl
      rw [hcf, hnp, ih hrest st]
      simp

theorem foldl_checks_sa (ms : Manifests) (hclean : cleanSet ms = true) (st : Checks) :
    saFlag (ms.foldl checkFile st) = (saFlag st || ms.any fileHasSA) := by
  induction ms generalizing st with
  | nil => simp
  | cons p ms ih =>
    unfold cleanSet at hclean
    rw [List.all_cons, Bool.and_eq_true] at hclean
    obtain ⟨hp, hrest⟩ := hclean
    rw [List.foldl_cons, List.any_cons]
    by_cases hy : strEndsWith p.1 ".yaml" = true
    · cases hd : p.2.docs with
      | none =>
        have hcf : checkFile st p = st := by
          unfold checkFile
          rw [hy, hd]
          rfl
        have hsa : fileHasSA p = false := by
          unfold fileHasSA
          rw [hd]
          simp
        rw [hcf, hsa, ih hrest st]
        simp
      | some ds =>
        have hok : ∀ d ∈ ds, docOk d = true := by
          rw [hy, hd] at hp
          simp only [Bool.not_true, Bool.false_or] at hp
          exact List.all_eq_true.mp hp
        have hcf : checkFile st p = (Step.forEach checkDoc ds st).1 := by
          unfold checkFile
          rw [hy, hd]
          rfl
        have hsa : fileHasSA p = ds.any docSetsSA := by
          unfold fileHasSA
          rw [hy, hd]
          simp
        rw [hcf, hsa, ih hrest, forEach_checkDoc_sa ds hok st, Bool.or_assoc]
    · have hy' : strEndsWith p.1 ".yaml" = false := by
        revert hy
        cases strEndsWith p.1 ".yaml" <;> simp
      have hcf : checkFile st p = st := by
        unfold checkFile
        rw [hy']
        rfl
      have hsa : fileHasSA p = false := by
        unfold fileHasSA
        rw [hy']
        rfl
      rw [hcf, hsa, ih hrest st]
      simp

/-- Spec-side predicate (from the spec's words, for comparison only): every
scanned Deployment declares a non-default (and non-empty) service account. -/
def specEveryDeploymentNonDefaultSA (ms : Manifests) : Bool :=
  ms.all fun p =>
    !(strEndsWith p.1 ".yaml") ||
    (match p.2.docs with
     | none => true
     | some ds => ds.all fun d =>
        !(d.truthy && (match d.get1 "kind" with
          | some k => kindIs k "Deployment"
          | none => false)) ||
        (match (podSpecOf d).bind (fun ps => ps.get1 "serviceAccountName") with
         | some (.str s) => decide (s ≠ "default" ∧ s ≠ "")
         | _ => false))

/-- C3 (amended): the zero-trust-ready flag is true iff a NetworkPolicy
document was scanned somewhere in the set and at least one scanned
Deployment sets a truthy `serviceAccountName` — not necessarily every
Deployment, and the account may be the literal `"default"`.  (Stated for
sets every document of which is processed without an exception.) -/
theorem zero_trust_ready_characterization (ms : Manifests) (hclean : cleanSet ms = true) :
    (check_compliance (run_basic_checks ms)).zero_trust_ready =
      (ms.any fileHasNP && ms.any fileHasSA) := by
  show ((run_basic_checks ms).network_policies_present &&
    (run_basic_checks ms).service_account_set) = _
  unfold run_basic_checks
  rw [show (ms.foldl checkFile initChecks).network_policies_present =
      npFlag (ms.foldl checkFile initChecks) from rfl]
  rw [show (ms.foldl checkFile initChecks).service_account_set =
      saFlag (ms.foldl checkFile initChecks) from rfl]
  rw [foldl_checks_np ms hclean initChecks, foldl_checks_sa ms hclean initChecks]
  rfl

/-- Deployment that sets a dedicated service account. -/
def saDeployment : Yaml :=
  .map [("kind", .str "Deployment"), ("metadata", .map [("name", .str "a")]),
        ("spec", .map [("template", .map [("spec",
          .map [("serviceAccountName", .str "custom-sa")])])])]

/-- Deployment that sets no service account at all. -/
def plainDeployment : Yaml :=
  .map [("kind", .str "Deployment"), ("metadata", .map [("name", .str "b")]),
        ("spec", .map [])]

def npPolicyDoc : Yaml :=
  .map [("kind", .str "NetworkPolicy"), ("metadata", .map [("name", .str "np")])]

/-- Concrete manifest set: one Deployment with a service account, one
without, plus a NetworkPolicy. -/
def exSecMs : Manifests :=
  [("deployments.yaml", ⟨"d", some [saDeployment, plainDeployment]⟩),
   ("netpol.yaml", ⟨"n", some [npPolicyDoc]⟩)]

/-- C3 counterexample: on `exSecMs` the flag is reported true although one
scanned Deployment declares no (non-default) service account — the code only
requires some Deployment to set the field, not all of them. -/
theorem zero_trust_counterexample :
    (check_compliance (run_basic_checks exSecMs)).zero_trust_ready = true ∧
    specEveryDeploymentNonDefaultSA exSecMs = false :=
  ⟨rfl, rfl⟩

/-- C3 witness: the amended characterization evaluated on `exSecMs`. -/
theorem zero_trust_ready_characterization_witness :
    (check_compliance (run_basic_checks exSecMs)).zero_trust_ready =
      (exSecMs.any fileHasNP && exSecMs.any fileHasSA) :=
  zero_trust_ready_characterization exSecMs rfl

end MTSDeploy
